import Mathlib

/-!
Shallow embedding of `Thea::Algorithms::ImplicitSurfaceMesher`
(src/Code/Source/Algorithms/ImplicitSurfaceMesher.hpp).

Real-valued quantities (`double`, `float`, `Real`, CGAL `FT`) are modelled as
rationals; the code under study only compares them with `0` and divides by
constants.  Raw pointers are modelled as `Option` values (`none` = null).
The caller-supplied target mesh and its `IncrementalMeshBuilder` are external
collaborators; they are modelled by an explicit mesh state (vertex and face
lists), an oracle deciding which insertions yield valid handles, and an event
trace recording the builder calls that were made.  The two reconstruction
back-ends (Bloomenthal polygonizer, CGAL `make_mesh_3`) are opaque: their
outputs are parameters of the embedding, shaped exactly like the output
contract the export adapters consume.
-/

namespace Thea

structure Vec3 where
  x : ℚ
  y : ℚ
  z : ℚ
deriving DecidableEq

/-- `Ball3`: center and radius, as used via `getCenter` / `getRadius`. -/
structure Ball3 where
  center : Vec3
  radius : ℚ
deriving DecidableEq

def Ball3.getRadius (b : Ball3) : ℚ := b.radius

def Ball3.getCenter (b : Ball3) : Vec3 := b.center

/-- `ImplicitSurfaceMesher::Options::Bloomenthal` (header lines 104-118). -/
structure OptionsBloomenthal where
  cell_size : ℚ
  max_search_steps : Int
  tetrahedralize_cubes : Bool
deriving DecidableEq

/-- Default constructor arguments `(-1, -1, false)`. -/
def OptionsBloomenthal.defaults : OptionsBloomenthal := ⟨-1, -1, false⟩

/-- `ImplicitSurfaceMesher::Options::BoissonnatOudot` (header lines 127-142). -/
structure OptionsBoissonnatOudot where
  min_facet_angle : ℚ
  min_delaunay_radius : ℚ
  min_center_separation : ℚ
deriving DecidableEq

/-- Default constructor arguments `(-1, -1, -1)`. -/
def OptionsBoissonnatOudot.defaults : OptionsBoissonnatOudot := ⟨-1, -1, -1⟩

/-- The fatal error conditions of the mesher, one per `alwaysAssertM` /
`throw Error(...)` site in the header. -/
inductive Err where
  | nullFunc
  | vertexB
  | triIndex
  | faceB
  | vertexC
  | unmapped
  | faceC
deriving DecidableEq

/-- The message text each error site carries in the source. -/
def Err.message : Err → String
  | .nullFunc => "ImplicitSurfaceMesher: Surface evaluator function cannot be null"
  | .vertexB => "ImplicitSurfaceMesher: Could not add vertex from Bloomenthal polygonizer to mesh"
  | .triIndex => "ImplicitSurfaceMesher: Vertex index in triangle from Bloomenthal polygonizer is out of bounds"
  | .faceB => "ImplicitSurfaceMesher: Could not add triangle from Bloomenthal polygonizer to mesh"
  | .vertexC => "ImplicitSurfaceMesher: Could not add vertex from Boissonnat-Oudot polygonizer to mesh"
  | .unmapped => "ImplicitSurfaceMesher: Mesh created by Boissonnat-Oudot polygonizer refers to unmapped vertex"
  | .faceC => "ImplicitSurfaceMesher: Could not add triangle from Boissonnat-Oudot polygonizer to mesh"

/-- `BloomenthalEval` (header lines 63-76): holds the functor pointer. -/
structure BloomenthalEval (F : Type) where
  func : Option F

/-- `BloomenthalEval::BloomenthalEval` (lines 68-71): stores the pointer,
then `alwaysAssertM(func, ...)` fails fatally when it is null. -/
def mkBloomenthalEval (F : Type) (func_ : Option F) : Except Err (BloomenthalEval F) :=
  if func_.isSome then .ok ⟨func_⟩ else .error .nullFunc

/-- `CgalEval` (header lines 81-95): holds the functor pointer. -/
structure CgalEval (F : Type) where
  func : Option F

/-- `CgalEval::CgalEval` (line 90): stores the pointer with no null check. -/
def mkCgalEval (F : Type) (func_ : Option F) : CgalEval F := ⟨func_⟩

/-! ### The target mesh and the incremental builder

Modelled from the collaborator contract the export adapters rely on:
`begin`/`end` bracket, `addVertex` returning a handle judged by
`isValidVertexHandle`, `addFace` returning a handle judged by
`isValidFaceHandle`.  A handle is the position of the inserted element in the
mesh's list; the oracle decides, per call, whether the returned handle is
valid (insertion success).  An invalid insertion leaves the mesh unchanged. -/

/-- A vertex stored in the target mesh: position, optional source index
(the `(intx)i` argument of the Bloomenthal export), optional normal. -/
structure MVertex where
  pos : Vec3
  srcIndex : Option Int
  normal : Option Vec3
deriving DecidableEq

/-- A face stored in the target mesh: three vertex handles. -/
structure MFace where
  h0 : Nat
  h1 : Nat
  h2 : Nat
deriving DecidableEq

/-- The caller-owned target mesh (`MeshT & result`). -/
structure Mesh where
  vertices : List MVertex
  faces : List MFace
deriving DecidableEq

/-- Decides, per builder call (numbered within each loop), whether the handle
returned by `addVertex` / `addFace` is valid. -/
structure Oracle where
  vOk : Nat → Bool
  fOk : Nat → Bool

/-- One observable builder call made by an export adapter. -/
inductive Ev where
  | begin
  | addVertex (pos : Vec3) (srcIndex : Option Int) (normal : Option Vec3) (valid : Bool)
  | addFace (h0 h1 h2 : Nat) (valid : Bool)
  | endB
deriving DecidableEq

/-- Result of one `builder.addVertex` call. -/
structure AddVRes where
  mesh : Mesh
  handle : Nat
  valid : Bool

/-- `builder.addVertex(p, idx, n)` followed by `isValidVertexHandle`. -/
def addVertex (orc : Oracle) (k : Nat) (m : Mesh) (p : Vec3) (idx : Option Int)
    (nrm : Option Vec3) : AddVRes :=
  if orc.vOk k then ⟨⟨m.vertices ++ [⟨p, idx, nrm⟩], m.faces⟩, m.vertices.length, true⟩
  else ⟨m, 0, false⟩

/-- Result of one `builder.addFace` call. -/
structure AddFRes where
  mesh : Mesh
  valid : Bool

/-- `builder.addFace(vx, vx + 3)` followed by `isValidFaceHandle`. -/
def addFace (orc : Oracle) (k : Nat) (m : Mesh) (h0 h1 h2 : Nat) : AddFRes :=
  if orc.fOk k then ⟨⟨m.vertices, m.faces ++ [⟨h0, h1, h2⟩]⟩, true⟩
  else ⟨m, false⟩

/-! ### Export adapter, Bloomenthal overload (header lines 259-295) -/

/-- `BloomenthalPolygonizer::TRIANGLE`: three `int` vertex indices. -/
structure TRIANGLE where
  v0 : Int
  v1 : Int
  v2 : Int
deriving DecidableEq

/-- The polygonizer's output contract: parallel vertex/normal arrays
(paired here) and a triangle array. -/
structure Polygonizer where
  vertices : List (Vec3 × Vec3)
  triangles : List TRIANGLE
deriving DecidableEq

/-- The `alwaysAssertM` range condition of header lines 283-285:
`tri.v >= 0 && (size_t)tri.v < vertices.size()` for each of the three
indices. -/
def triInRange (t : TRIANGLE) (n : Nat) : Bool :=
  (decide (0 ≤ t.v0) && decide (t.v0 < (n : Int))) &&
  (decide (0 ≤ t.v1) && decide (t.v1 < (n : Int))) &&
  (decide (0 ≤ t.v2) && decide (t.v2 < (n : Int)))

/-- State after the vertex loop of the Bloomenthal export. -/
structure BVLoopRes where
  mesh : Mesh
  handles : List Nat
  trace : List Ev
  err : Option Err

/-- The vertex loop of header lines 267-278: for each raw vertex `i` in
order, `addVertex(p, (intx)i, &n)`; an invalid handle throws; otherwise the
handle is pushed onto `vertices`. -/
def bVertexLoop (orc : Oracle) :
    List (Vec3 × Vec3) → Nat → Mesh → List Nat → List Ev → BVLoopRes
  | [], _, m, hs, tr => ⟨m, hs, tr, none⟩
  | (p, nrm) :: rest, i, m, hs, tr =>
    let r := addVertex orc i m p (some (Int.ofNat i)) (some nrm)
    let tr' := tr ++ [Ev.addVertex p (some (Int.ofNat i)) (some nrm) r.valid]
    if r.valid then bVertexLoop orc rest (i + 1) r.mesh (hs ++ [r.handle]) tr'
    else ⟨r.mesh, hs, tr', some .vertexB⟩

/-- State after a triangle/facet loop. -/
structure TLoopRes where
  mesh : Mesh
  trace : List Ev
  err : Option Err

/-- The body of the triangle loop of header lines 280-293: assert all three
indices in range (fatal otherwise, nothing inserted), then `addFace` on the
handles at those indices; an invalid face handle throws. -/
def bTriStep (orc : Oracle) (k : Nat) (t : TRIANGLE) (hs : List Nat) (m : Mesh)
    (tr : List Ev) : TLoopRes :=
  if triInRange t hs.length then
    let h0 := hs.getD t.v0.toNat 0
    let h1 := hs.getD t.v1.toNat 0
    let h2 := hs.getD t.v2.toNat 0
    let r := addFace orc k m h0 h1 h2
    let tr' := tr ++ [Ev.addFace h0 h1 h2 r.valid]
    if r.valid then ⟨r.mesh, tr', none⟩ else ⟨r.mesh, tr', some .faceB⟩
  else ⟨m, tr, some .triIndex⟩

/-- The triangle loop of header lines 280-293. -/
def bTriLoop (orc : Oracle) : List TRIANGLE → Nat → List Nat → Mesh → List Ev → TLoopRes
  | [], _, _, m, tr => ⟨m, tr, none⟩
  | t :: rest, k, hs, m, tr =>
    let s := bTriStep orc k t hs m tr
    match s.err with
    | none => bTriLoop orc rest (k + 1) hs s.mesh s.trace
    | some e => ⟨s.mesh, s.trace, some e⟩

/-- Result of `exportMesh(Polygonizer, MeshT)`. -/
structure BExport where
  mesh : Mesh
  handles : List Nat
  trace : List Ev
  err : Option Err
deriving DecidableEq

/-- `exportMesh` for the Bloomenthal polygonizer (header lines 259-295):
`builder.begin()`, the vertex loop, the triangle loop, `builder.end()`.
A thrown error aborts before `end`. -/
def exportMeshB (orc : Oracle) (poly : Polygonizer) (dst : Mesh) : BExport :=
  let v := bVertexLoop orc poly.vertices 0 dst [] [Ev.begin]
  match v.err with
  | some e => ⟨v.mesh, v.handles, v.trace, some e⟩
  | none =>
    let t := bTriLoop orc poly.triangles 0 v.handles v.mesh v.trace
    match t.err with
    | some e => ⟨t.mesh, v.handles, t.trace, some e⟩
    | none => ⟨t.mesh, v.handles, t.trace ++ [Ev.endB], none⟩

/-- The arguments with which `meshBloomenthal` constructs and runs the
polygonizer (header lines 190-194). -/
structure PolygonizerConfig where
  size : ℚ
  bounds : Int
  tetrahedralize_cubes : Bool
  seed : Vec3
deriving DecidableEq

/-- Result of a successful `meshBloomenthal` call. -/
structure MBResult where
  config : PolygonizerConfig
  out : BExport
deriving DecidableEq

/-- `meshBloomenthal` (header lines 185-199): construct the evaluator
adapter (fatal on a null functor), resolve the option sentinels, run the
opaque polygonizer (`march`, a parameter mapping the construction arguments
to the raw output), and export. -/
def meshBloomenthal (F : Type) (surface_functor : Option F) (bounding_ball : Ball3)
    (pt_near_surface : Vec3) (options : OptionsBloomenthal)
    (march : PolygonizerConfig → Polygonizer) (orc : Oracle) (result : Mesh) :
    Except Err MBResult :=
  match mkBloomenthalEval F surface_functor with
  | .error e => .error e
  | .ok _ =>
    let size := if options.cell_size < 0 then bounding_ball.getRadius / 10 else options.cell_size
    let bounds := if options.max_search_steps < 0 then 10 else options.max_search_steps
    let cfg : PolygonizerConfig := ⟨size, bounds, options.tetrahedralize_cubes, pt_near_surface⟩
    .ok ⟨cfg, exportMeshB orc (march cfg) result⟩

/-! ### Export adapter, C3t3 overload (header lines 300-355) -/

/-- A triangulation cell: four vertex identities (`cell->vertex(0..3)`).
Vertex identities stand for CGAL `Tr::Vertex_handle` values. -/
structure Cell where
  v0 : Nat
  v1 : Nat
  v2 : Nat
  v3 : Nat
deriving DecidableEq

/-- `cell->vertex(i)` for `i` in `0..3`. -/
def Cell.vertex (c : Cell) (i : Nat) : Nat :=
  match i with
  | 0 => c.v0
  | 1 => c.v1
  | 2 => c.v2
  | _ => c.v3

/-- A facet of the complex: `fit->first` (the cell) and `fit->second`
(the index of the cell vertex opposite the facet). -/
structure Facet where
  cell : Cell
  index : Nat
deriving DecidableEq

/-- The refinement result's output contract: the finite vertices of the
triangulation (identity paired with its point) and the facets marked as
belonging to the surface complex. -/
structure C3t3 where
  finiteVertices : List (Nat × Vec3)
  facets : List Facet
deriving DecidableEq

/-- The `vertex_indices` computation of header lines 333-339: the indices
`i` in `0..3` with `i != facet_index`, in increasing order. -/
def facetVertexIndices (f : Nat) : List Nat :=
  (List.range 4).filter (fun i => decide (i ≠ f))

/-- The empty vertex identity map (`VertexMap vmap`). -/
def emptyVMap : Nat → Option Nat := fun _ => none

/-- `vmap[vit] = vout`. -/
def vmapInsert (m : Nat → Option Nat) (k v : Nat) : Nat → Option Nat :=
  fun x => if x = k then some v else m x

/-- State after the vertex loop of the C3t3 export. -/
structure CVLoopRes where
  mesh : Mesh
  vmap : Nat → Option Nat
  trace : List Ev
  err : Option Err

/-- The finite-vertex loop of header lines 313-322: insert every finite
triangulation vertex into the target mesh (fatal on an invalid handle) and
record the returned handle in the identity map. -/
def cVertexLoop (orc : Oracle) :
    List (Nat × Vec3) → Nat → Mesh → (Nat → Option Nat) → List Ev → CVLoopRes
  | [], _, m, vm, tr => ⟨m, vm, tr, none⟩
  | (vh, p) :: rest, k, m, vm, tr =>
    let r := addVertex orc k m p none none
    let tr' := tr ++ [Ev.addVertex p none none r.valid]
    if r.valid then cVertexLoop orc rest (k + 1) r.mesh (vmapInsert vm vh r.handle) tr'
    else ⟨r.mesh, vm, tr', some .vertexC⟩

/-- The lookup loop of header lines 341-349: map each facet corner through
the identity map; `none` when some corner is unmapped (`vmap.find == end`). -/
def lookupHandles (vm : Nat → Option Nat) (c : Cell) : List Nat → Option (List Nat)
  | [] => some []
  | i :: rest =>
    match vm (c.vertex i) with
    | none => none
    | some h => (lookupHandles vm c rest).map (fun l => h :: l)

/-- The body of the facet loop of header lines 326-353: derive the three
corner indices, look each corner up in the identity map (fatal when
unmapped, nothing inserted), then `addFace` on the mapped handles (fatal on
an invalid handle). -/
def cFacetStep (orc : Oracle) (k : Nat) (fc : Facet) (vm : Nat → Option Nat)
    (m : Mesh) (tr : List Ev) : TLoopRes :=
  match lookupHandles vm fc.cell (facetVertexIndices fc.index) with
  | none => ⟨m, tr, some .unmapped⟩
  | some hs =>
    let h0 := hs.getD 0 0
    let h1 := hs.getD 1 0
    let h2 := hs.getD 2 0
    let r := addFace orc k m h0 h1 h2
    let tr' := tr ++ [Ev.addFace h0 h1 h2 r.valid]
    if r.valid then ⟨r.mesh, tr', none⟩ else ⟨r.mesh, tr', some .faceC⟩

/-- The facet loop of header lines 326-353. -/
def cFacetLoop (orc : Oracle) :
    List Facet → Nat → (Nat → Option Nat) → Mesh → List Ev → TLoopRes
  | [], _, _, m, tr => ⟨m, tr, none⟩
  | fc :: rest, k, vm, m, tr =>
    let s := cFacetStep orc k fc vm m tr
    match s.err with
    | none => cFacetLoop orc rest (k + 1) vm s.mesh s.trace
    | some e => ⟨s.mesh, s.trace, some e⟩

/-- Result of `exportMesh(C3t3, MeshT)`. -/
structure CExport where
  mesh : Mesh
  vmap : Nat → Option Nat
  trace : List Ev
  err : Option Err

/-- `exportMesh` for the C3t3 complex (header lines 300-355):
`builder.begin()`, the finite-vertex loop, the facet loop, `builder.end()`.
A thrown error aborts before `end`. -/
def exportMeshC (orc : Oracle) (src : C3t3) (dst : Mesh) : CExport :=
  let v := cVertexLoop orc src.finiteVertices 0 dst emptyVMap [Ev.begin]
  match v.err with
  | some e => ⟨v.mesh, v.vmap, v.trace, some e⟩
  | none =>
    let f := cFacetLoop orc src.facets 0 v.vmap v.mesh v.trace
    match f.err with
    | some e => ⟨f.mesh, v.vmap, f.trace, some e⟩
    | none => ⟨f.mesh, v.vmap, f.trace ++ [Ev.endB], none⟩

/-- The `Mesh_criteria` built at header lines 241-245.  The field
`cell_radius_edge` models the `cell_radius_edge_ratio(2.0)` argument. -/
structure MeshCriteria where
  facet_angle : ℚ
  facet_size : ℚ
  facet_distance : ℚ
  cell_radius_edge : ℚ
deriving DecidableEq

/-- The sentinel resolution of header lines 241-245.  `r2d` stands for
`Math::radiansToDegrees`, whose definition lives outside the examined
sources; it is kept abstract. -/
def boissonnatOudotCriteria (r2d : ℚ → ℚ) (options : OptionsBoissonnatOudot) :
    MeshCriteria :=
  ⟨if options.min_facet_angle < 0 then 30 else r2d options.min_facet_angle,
   if options.min_delaunay_radius < 0 then 1/10 else options.min_delaunay_radius,
   if options.min_center_separation < 0 then 1/10 else options.min_center_separation,
   2⟩

/-- Result of a `meshBoissonnatOudot` call. -/
structure MBOResult where
  sphereCenter : Vec3
  sphereSqRadius : ℚ
  criteria : MeshCriteria
  out : CExport

/-- `meshBoissonnatOudot` (header lines 215-253): construct the evaluator
adapter (no failure channel), build the bounding sphere with squared radius,
resolve the criteria sentinels, run the opaque refinement (`makeMesh`, a
parameter mapping the criteria to the resulting complex), and export. -/
def meshBoissonnatOudot (F : Type) (surface_functor : Option F) (bounding_ball : Ball3)
    (options : OptionsBoissonnatOudot) (r2d : ℚ → ℚ)
    (makeMesh : MeshCriteria → C3t3) (orc : Oracle) (result : Mesh) : MBOResult :=
  let _func := mkCgalEval F surface_functor
  let criteria := boissonnatOudotCriteria r2d options
  ⟨bounding_ball.getCenter, bounding_ball.getRadius * bounding_ball.getRadius,
   criteria, exportMeshC orc (makeMesh criteria) result⟩

/-! ### Helper lemmas -/

/-- The list `[s, s+1, ..., s+n-1]`: the handles returned by `n` consecutive
successful `addVertex` calls starting from a mesh with `s` vertices. -/
def seqFrom (s : Nat) : Nat → List Nat
  | 0 => []
  | n + 1 => s :: seqFrom (s + 1) n

/-- Whether a builder call in the trace returned a valid handle
(`begin`/`end` count as trivially valid). -/
def evValid : Ev → Bool
  | .addVertex _ _ _ v => v
  | .addFace _ _ _ v => v
  | _ => true

/-- Whether a trace event is an `addVertex` call. -/
def isAddV : Ev → Bool
  | .addVertex _ _ _ _ => true
  | _ => false

/-- Whether a trace event is an `addFace` call. -/
def isAddF : Ev → Bool
  | .addFace _ _ _ _ => true
  | _ => false

/-- The `j`-th entry (0-based) of `vertex_indices` for opposite-vertex
index `f`. -/
def otherIdx (f j : Nat) : Nat := (facetVertexIndices f).getD j 0

lemma seqFrom_length (s n : Nat) : (seqFrom s n).length = n := by
  induction n generalizing s with
  | zero => rfl
  | succ n ih => simp [seqFrom, ih]

lemma seqFrom_getD (n : Nat) : ∀ s i, i < n → (seqFrom s n).getD i 0 = s + i := by
  induction n with
  | zero => intro s i h; omega
  | succ n ih =>
    intro s i h
    cases i with
    | zero => simp [seqFrom]
    | succ i =>
      have := ih (s + 1) i (by omega)
      simpa [seqFrom, Nat.add_assoc, Nat.add_comm 1 i] using this

lemma bVertexLoop_ok (orc : Oracle) :
    ∀ (l : List (Vec3 × Vec3)) (i : Nat) (m : Mesh) (hs : List Nat) (tr : List Ev),
    (bVertexLoop orc l i m hs tr).err = none →
    (bVertexLoop orc l i m hs tr).handles = hs ++ seqFrom m.vertices.length l.length ∧
    (bVertexLoop orc l i m hs tr).mesh.vertices.length = m.vertices.length + l.length ∧
    (bVertexLoop orc l i m hs tr).mesh.faces = m.faces := by
  intro l
  induction l with
  | nil => intro i m hs tr _; simp [bVertexLoop, seqFrom]
  | cons v rest ih =>
    rcases v with ⟨p, nrm⟩
    intro i m hs tr h
    by_cases hv : orc.vOk i
    · rw [show bVertexLoop orc ((p, nrm) :: rest) i m hs tr =
          bVertexLoop orc rest (i + 1) ⟨m.vertices ++ [⟨p, some (Int.ofNat i), some nrm⟩], m.faces⟩
            (hs ++ [m.vertices.length])
            (tr ++ [Ev.addVertex p (some (Int.ofNat i)) (some nrm) true]) by
        simp [bVertexLoop, addVertex, hv]] at h ⊢
      obtain ⟨h1, h2, h3⟩ := ih (i + 1) _ _ _ h
      refine ⟨?_, ?_, h3⟩
      · rw [h1]; simp [seqFrom, List.append_assoc]
      · rw [h2]; simp; omega
    · simp [bVertexLoop, addVertex, hv] at h

lemma bTriLoop_ok (orc : Oracle) :
    ∀ (l : List TRIANGLE) (k : Nat) (hs : List Nat) (m : Mesh) (tr : List Ev),
    (bTriLoop orc l k hs m tr).err = none →
    (bTriLoop orc l k hs m tr).mesh.faces.length = m.faces.length + l.length ∧
    (bTriLoop orc l k hs m tr).mesh.vertices = m.vertices := by
  intro l
  induction l with
  | nil => intro k hs m tr _; simp [bTriLoop]
  | cons t rest ih =>
    intro k hs m tr h
    by_cases hr : triInRange t hs.length
    · by_cases hf : orc.fOk k
      · rw [show bTriLoop orc (t :: rest) k hs m tr =
            bTriLoop orc rest (k + 1) hs
              ⟨m.vertices, m.faces ++ [⟨hs.getD t.v0.toNat 0, hs.getD t.v1.toNat 0, hs.getD t.v2.toNat 0⟩]⟩
              (tr ++ [Ev.addFace (hs.getD t.v0.toNat 0) (hs.getD t.v1.toNat 0) (hs.getD t.v2.toNat 0) true]) by
          simp [bTriLoop, bTriStep, addFace, hr, hf]] at h ⊢
        obtain ⟨h1, h2⟩ := ih (k + 1) _ _ _ h
        refine ⟨?_, h2⟩
        rw [h1]; simp; omega
      · simp [bTriLoop, bTriStep, addFace, hr, hf] at h
    · simp [bTriLoop, bTriStep, hr] at h

lemma bVertexLoop_add (orc : Oracle) :
    ∀ (l : List (Vec3 × Vec3)) (i : Nat) (m : Mesh) (hs : List Nat) (tr : List Ev),
    ∃ t, (bVertexLoop orc l i m hs tr).mesh.vertices = m.vertices ++ t ∧
      (bVertexLoop orc l i m hs tr).mesh.faces = m.faces := by
  intro l
  induction l with
  | nil => intro i m hs tr; exact ⟨[], by simp [bVertexLoop], by simp [bVertexLoop]⟩
  | cons v rest ih =>
    rcases v with ⟨p, nrm⟩
    intro i m hs tr
    by_cases hv : orc.vOk i
    · obtain ⟨t, h1, h2⟩ := ih (i + 1)
        ⟨m.vertices ++ [⟨p, some (Int.ofNat i), some nrm⟩], m.faces⟩
        (hs ++ [m.vertices.length])
        (tr ++ [Ev.addVertex p (some (Int.ofNat i)) (some nrm) true])
      refine ⟨⟨p, some (Int.ofNat i), some nrm⟩ :: t, ?_, ?_⟩
      · rw [show bVertexLoop orc ((p, nrm) :: rest) i m hs tr =
            bVertexLoop orc rest (i + 1) ⟨m.vertices ++ [⟨p, some (Int.ofNat i), some nrm⟩], m.faces⟩
              (hs ++ [m.vertices.length])
              (tr ++ [Ev.addVertex p (some (Int.ofNat i)) (some nrm) true]) by
          simp [bVertexLoop, addVertex, hv]]
        rw [h1]; simp
      · rw [show bVertexLoop orc ((p, nrm) :: rest) i m hs tr =
            bVertexLoop orc rest (i + 1) ⟨m.vertices ++ [⟨p, some (Int.ofNat i), some nrm⟩], m.faces⟩
              (hs ++ [m.vertices.length])
              (tr ++ [Ev.addVertex p (some (Int.ofNat i)) (some nrm) true]) by
          simp [bVertexLoop, addVertex, hv]]
        rw [h2]
    · exact ⟨[], by simp [bVertexLoop, addVertex, hv], by simp [bVertexLoop, addVertex, hv]⟩

lemma bTriStep_add (orc : Oracle) (k : Nat) (t : TRIANGLE) (hs : List Nat) (m : Mesh)
    (tr : List Ev) :
    (bTriStep orc k t hs m tr).mesh.vertices = m.vertices ∧
    ∃ tf, (bTriStep orc k t hs m tr).mesh.faces = m.faces ++ tf := by
  by_cases hr : triInRange t hs.length
  · by_cases hf : orc.fOk k
    · exact ⟨by simp [bTriStep, addFace, hr, hf],
        ⟨[⟨hs.getD t.v0.toNat 0, hs.getD t.v1.toNat 0, hs.getD t.v2.toNat 0⟩],
         by simp [bTriStep, addFace, hr, hf]⟩⟩
    · exact ⟨by simp [bTriStep, addFace, hr, hf], ⟨[], by simp [bTriStep, addFace, hr, hf]⟩⟩
  · exact ⟨by simp [bTriStep, hr], ⟨[], by simp [bTriStep, hr]⟩⟩

lemma bTriLoop_add (orc : Oracle) :
    ∀ (l : List TRIANGLE) (k : Nat) (hs : List Nat) (m : Mesh) (tr : List Ev),
    (bTriLoop orc l k hs m tr).mesh.vertices = m.vertices ∧
    ∃ tf, (bTriLoop orc l k hs m tr).mesh.faces = m.faces ++ tf := by
  intro l
  induction l with
  | nil => intro k hs m tr; exact ⟨by simp [bTriLoop], ⟨[], by simp [bTriLoop]⟩⟩
  | cons t rest ih =>
    intro k hs m tr
    obtain ⟨hsv, tf0, hsf⟩ := bTriStep_add orc k t hs m tr
    rcases he : (bTriStep orc k t hs m tr).err with _ | e
    · obtain ⟨ihv, tf1, ihf⟩ := ih (k + 1) hs (bTriStep orc k t hs m tr).mesh
        (bTriStep orc k t hs m tr).trace
      refine ⟨?_, ⟨tf0 ++ tf1, ?_⟩⟩
      · rw [show bTriLoop orc (t :: rest) k hs m tr =
            bTriLoop orc rest (k + 1) hs (bTriStep orc k t hs m tr).mesh
              (bTriStep orc k t hs m tr).trace by
          simp [bTriLoop]; rw [he]]
        rw [ihv, hsv]
      · rw [show bTriLoop orc (t :: rest) k hs m tr =
            bTriLoop orc rest (k + 1) hs (bTriStep orc k t hs m tr).mesh
              (bTriStep orc k t hs m tr).trace by
          simp [bTriLoop]; rw [he]]
        rw [ihf, hsf, List.append_assoc]
    · refine ⟨?_, ⟨tf0, ?_⟩⟩
      · rw [show bTriLoop orc (t :: rest) k hs m tr =
            ⟨(bTriStep orc k t hs m tr).mesh, (bTriStep orc k t hs m tr).trace, some e⟩ by
          simp [bTriLoop]; rw [he]]
        exact hsv
      · rw [show bTriLoop orc (t :: rest) k hs m tr =
            ⟨(bTriStep orc k t hs m tr).mesh, (bTriStep orc k t hs m tr).trace, some e⟩ by
          simp [bTriLoop]; rw [he]]
        exact hsf

lemma exportMeshB_eqA (orc : Oracle) (poly : Polygonizer) (dst : Mesh) (e : Err)
    (he : (bVertexLoop orc poly.vertices 0 dst [] [Ev.begin]).err = some e) :
    exportMeshB orc poly dst =
      ⟨(bVertexLoop orc poly.vertices 0 dst [] [Ev.begin]).mesh,
       (bVertexLoop orc poly.vertices 0 dst [] [Ev.begin]).handles,
       (bVertexLoop orc poly.vertices 0 dst [] [Ev.begin]).trace, some e⟩ := by
  simp [exportMeshB]; rw [he]

lemma exportMeshB_eqB (orc : Oracle) (poly : Polygonizer) (dst : Mesh) (e : Err)
    (he : (bVertexLoop orc poly.vertices 0 dst [] [Ev.begin]).err = none)
    (he2 : (bTriLoop orc poly.triangles 0
        (bVertexLoop orc poly.vertices 0 dst [] [Ev.begin]).handles
        (bVertexLoop orc poly.vertices 0 dst [] [Ev.begin]).mesh
        (bVertexLoop orc poly.vertices 0 dst [] [Ev.begin]).trace).err = some e) :
    exportMeshB orc poly dst =
      ⟨(bTriLoop orc poly.triangles 0
          (bVertexLoop orc poly.vertices 0 dst [] [Ev.begin]).handles
          (bVertexLoop orc poly.vertices 0 dst [] [Ev.begin]).mesh
          (bVertexLoop orc poly.vertices 0 dst [] [Ev.begin]).trace).mesh,
       (bVertexLoop orc poly.vertices 0 dst [] [Ev.begin]).handles,
       (bTriLoop orc poly.triangles 0
          (bVertexLoop orc poly.vertices 0 dst [] [Ev.begin]).handles
          (bVertexLoop orc poly.vertices 0 dst [] [Ev.begin]).mesh
          (bVertexLoop orc poly.vertices 0 dst [] [Ev.begin]).trace).trace, some e⟩ := by
  simp [exportMeshB]; rw [he]; simp; rw [he2]

lemma exportMeshB_eqC (orc : Oracle) (poly : Polygonizer) (dst : Mesh)
    (he : (bVertexLoop orc poly.vertices 0 dst [] [Ev.begin]).err = none)
    (he2 : (bTriLoop orc poly.triangles 0
        (bVertexLoop orc poly.vertices 0 dst [] [Ev.begin]).handles
        (bVertexLoop orc poly.vertices 0 dst [] [Ev.begin]).mesh
        (bVertexLoop orc poly.vertices 0 dst [] [Ev.begin]).trace).err = none) :
    exportMeshB orc poly dst =
      ⟨(bTriLoop orc poly.triangles 0
          (bVertexLoop orc poly.vertices 0 dst [] [Ev.begin]).handles
          (bVertexLoop orc poly.vertices 0 dst [] [Ev.begin]).mesh
          (bVertexLoop orc poly.vertices 0 dst [] [Ev.begin]).trace).mesh,
       (bVertexLoop orc poly.vertices 0 dst [] [Ev.begin]).handles,
       (bTriLoop orc poly.triangles 0
          (bVertexLoop orc poly.vertices 0 dst [] [Ev.begin]).handles
          (bVertexLoop orc poly.vertices 0 dst [] [Ev.begin]).mesh
          (bVertexLoop orc poly.vertices 0 dst [] [Ev.begin]).trace).trace ++ [Ev.endB], none⟩ := by
  simp [exportMeshB]; rw [he]; simp; rw [he2]

lemma exportMeshB_add (orc : Oracle) (poly : Polygonizer) (dst : Mesh) :
    ∃ tv tf, (exportMeshB orc poly dst).mesh.vertices = dst.vertices ++ tv ∧
      (exportMeshB orc poly dst).mesh.faces = dst.faces ++ tf := by
  obtain ⟨tv, hv1, hv2⟩ := bVertexLoop_add orc poly.vertices 0 dst [] [Ev.begin]
  rcases he : (bVertexLoop orc poly.vertices 0 dst [] [Ev.begin]).err with _ | e
  · obtain ⟨ht1, tf, ht2⟩ := bTriLoop_add orc poly.triangles 0
      (bVertexLoop orc poly.vertices 0 dst [] [Ev.begin]).handles
      (bVertexLoop orc poly.vertices 0 dst [] [Ev.begin]).mesh
      (bVertexLoop orc poly.vertices 0 dst [] [Ev.begin]).trace
    rcases he2 : (bTriLoop orc poly.triangles 0
      (bVertexLoop orc poly.vertices 0 dst [] [Ev.begin]).handles
      (bVertexLoop orc poly.vertices 0 dst [] [Ev.begin]).mesh
      (bVertexLoop orc poly.vertices 0 dst [] [Ev.begin]).trace).err with _ | e2
    · rw [exportMeshB_eqC orc poly dst he he2]
      exact ⟨tv, tf, by rw [ht1, hv1], by rw [ht2, hv2]⟩
    · rw [exportMeshB_eqB orc poly dst e2 he he2]
      exact ⟨tv, tf, by rw [ht1, hv1], by rw [ht2, hv2]⟩
  · rw [exportMeshB_eqA orc poly dst e he]
    exact ⟨tv, [], by rw [hv1], by rw [hv2]; simp⟩

lemma cVertexLoop_add (orc : Oracle) :
    ∀ (l : List (Nat × Vec3)) (k : Nat) (m : Mesh) (vm : Nat → Option Nat) (tr : List Ev),
    ∃ t, (cVertexLoop orc l k m vm tr).mesh.vertices = m.vertices ++ t ∧
      (cVertexLoop orc l k m vm tr).mesh.faces = m.faces := by
  intro l
  induction l with
  | nil => intro k m vm tr; exact ⟨[], by simp [cVertexLoop], by simp [cVertexLoop]⟩
  | cons v rest ih =>
    rcases v with ⟨vh, p⟩
    intro k m vm tr
    by_cases hv : orc.vOk k
    · have hstep : cVertexLoop orc ((vh, p) :: rest) k m vm tr =
          cVertexLoop orc rest (k + 1) ⟨m.vertices ++ [⟨p, none, none⟩], m.faces⟩
            (vmapInsert vm vh m.vertices.length)
            (tr ++ [Ev.addVertex p none none true]) := by
        simp [cVertexLoop, addVertex, hv]
      obtain ⟨t, h1, h2⟩ := ih (k + 1) ⟨m.vertices ++ [⟨p, none, none⟩], m.faces⟩
        (vmapInsert vm vh m.vertices.length) (tr ++ [Ev.addVertex p none none true])
      exact ⟨⟨p, none, none⟩ :: t, by rw [hstep, h1]; simp, by rw [hstep, h2]⟩
    · exact ⟨[], by simp [cVertexLoop, addVertex, hv], by simp [cVertexLoop, addVertex, hv]⟩

lemma cFacetStep_add (orc : Oracle) (k : Nat) (fc : Facet) (vm : Nat → Option Nat)
    (m : Mesh) (tr : List Ev) :
    (cFacetStep orc k fc vm m tr).mesh.vertices = m.vertices ∧
    ∃ tf, (cFacetStep orc k fc vm m tr).mesh.faces = m.faces ++ tf := by
  rcases hl : lookupHandles vm fc.cell (facetVertexIndices fc.index) with _ | hs
  · exact ⟨by simp [cFacetStep, hl], ⟨[], by simp [cFacetStep, hl]⟩⟩
  · by_cases hf : orc.fOk k
    · exact ⟨by simp [cFacetStep, hl, addFace, hf],
        ⟨[⟨hs.getD 0 0, hs.getD 1 0, hs.getD 2 0⟩], by simp [cFacetStep, hl, addFace, hf]⟩⟩
    · exact ⟨by simp [cFacetStep, hl, addFace, hf], ⟨[], by simp [cFacetStep, hl, addFace, hf]⟩⟩

lemma cFacetLoop_add (orc : Oracle) :
    ∀ (l : List Facet) (k : Nat) (vm : Nat → Option Nat) (m : Mesh) (tr : List Ev),
    (cFacetLoop orc l k vm m tr).mesh.vertices = m.vertices ∧
    ∃ tf, (cFacetLoop orc l k vm m tr).mesh.faces = m.faces ++ tf := by
  intro l
  induction l with
  | nil => intro k vm m tr; exact ⟨by simp [cFacetLoop], ⟨[], by simp [cFacetLoop]⟩⟩
  | cons fc rest ih =>
    intro k vm m tr
    obtain ⟨hsv, tf0, hsf⟩ := cFacetStep_add orc k fc vm m tr
    rcases he : (cFacetStep orc k fc vm m tr).err with _ | e
    · have hstep : cFacetLoop orc (fc :: rest) k vm m tr =
          cFacetLoop orc rest (k + 1) vm (cFacetStep orc k fc vm m tr).mesh
            (cFacetStep orc k fc vm m tr).trace := by
        simp [cFacetLoop]; rw [he]
      obtain ⟨ihv, tf1, ihf⟩ := ih (k + 1) vm (cFacetStep orc k fc vm m tr).mesh
        (cFacetStep orc k fc vm m tr).trace
      exact ⟨by rw [hstep, ihv, hsv], ⟨tf0 ++ tf1, by rw [hstep, ihf, hsf, List.append_assoc]⟩⟩
    · have hstep : cFacetLoop orc (fc :: rest) k vm m tr =
          ⟨(cFacetStep orc k fc vm m tr).mesh, (cFacetStep orc k fc vm m tr).trace, some e⟩ := by
        simp [cFacetLoop]; rw [he]
      exact ⟨by rw [hstep]; exact hsv, ⟨tf0, by rw [hstep]; exact hsf⟩⟩

lemma exportMeshC_eqA (orc : Oracle) (src : C3t3) (dst : Mesh) (e : Err)
    (he : (cVertexLoop orc src.finiteVertices 0 dst emptyVMap [Ev.begin]).err = some e) :
    exportMeshC orc src dst =
      ⟨(cVertexLoop orc src.finiteVertices 0 dst emptyVMap [Ev.begin]).mesh,
       (cVertexLoop orc src.finiteVertices 0 dst emptyVMap [Ev.begin]).vmap,
       (cVertexLoop orc src.finiteVertices 0 dst emptyVMap [Ev.begin]).trace, some e⟩ := by
  simp [exportMeshC]; rw [he]

lemma exportMeshC_eqB (orc : Oracle) (src : C3t3) (dst : Mesh) (e : Err)
    (he : (cVertexLoop orc src.finiteVertices 0 dst emptyVMap [Ev.begin]).err = none)
    (he2 : (cFacetLoop orc src.facets 0
        (cVertexLoop orc src.finiteVertices 0 dst emptyVMap [Ev.begin]).vmap
        (cVertexLoop orc src.finiteVertices 0 dst emptyVMap [Ev.begin]).mesh
        (cVertexLoop orc src.finiteVertices 0 dst emptyVMap [Ev.begin]).trace).err = some e) :
    exportMeshC orc src dst =
      ⟨(cFacetLoop orc src.facets 0
          (cVertexLoop orc src.finiteVertices 0 dst emptyVMap [Ev.begin]).vmap
          (cVertexLoop orc src.finiteVertices 0 dst emptyVMap [Ev.begin]).mesh
          (cVertexLoop orc src.finiteVertices 0 dst emptyVMap [Ev.begin]).trace).mesh,
       (cVertexLoop orc src.finiteVertices 0 dst emptyVMap [Ev.begin]).vmap,
       (cFacetLoop orc src.facets 0
          (cVertexLoop orc src.finiteVertices 0 dst emptyVMap [Ev.begin]).vmap
          (cVertexLoop orc src.finiteVertices 0 dst emptyVMap [Ev.begin]).mesh
          (cVertexLoop orc src.finiteVertices 0 dst emptyVMap [Ev.begin]).trace).trace, some e⟩ := by
  simp [exportMeshC]; rw [he]; simp; rw [he2]

lemma exportMeshC_eqC (orc : Oracle) (src : C3t3) (dst : Mesh)
    (he : (cVertexLoop orc src.finiteVertices 0 dst emptyVMap [Ev.begin]).err = none)
    (he2 : (cFacetLoop orc src.facets 0
        (cVertexLoop orc src.finiteVertices 0 dst emptyVMap [Ev.begin]).vmap
        (cVertexLoop orc src.finiteVertices 0 dst emptyVMap [Ev.begin]).mesh
        (cVertexLoop orc src.finiteVertices 0 dst emptyVMap [Ev.begin]).trace).err = none) :
    exportMeshC orc src dst =
      ⟨(cFacetLoop orc src.facets 0
          (cVertexLoop orc src.finiteVertices 0 dst emptyVMap [Ev.begin]).vmap
          (cVertexLoop orc src.finiteVertices 0 dst emptyVMap [Ev.begin]).mesh
          (cVertexLoop orc src.finiteVertices 0 dst emptyVMap [Ev.begin]).trace).mesh,
       (cVertexLoop orc src.finiteVertices 0 dst emptyVMap [Ev.begin]).vmap,
       (cFacetLoop orc src.facets 0
          (cVertexLoop orc src.finiteVertices 0 dst emptyVMap [Ev.begin]).vmap
          (cVertexLoop orc src.finiteVertices 0 dst emptyVMap [Ev.begin]).mesh
          (cVertexLoop orc src.finiteVertices 0 dst emptyVMap [Ev.begin]).trace).trace ++ [Ev.endB],
       none⟩ := by
  simp [exportMeshC]; rw [he]; simp; rw [he2]

lemma exportMeshC_add (orc : Oracle) (src : C3t3) (dst : Mesh) :
    ∃ tv tf, (exportMeshC orc src dst).mesh.vertices = dst.vertices ++ tv ∧
      (exportMeshC orc src dst).mesh.faces = dst.faces ++ tf := by
  obtain ⟨tv, hv1, hv2⟩ := cVertexLoop_add orc src.finiteVertices 0 dst emptyVMap [Ev.begin]
  rcases he : (cVertexLoop orc src.finiteVertices 0 dst emptyVMap [Ev.begin]).err with _ | e
  · obtain ⟨ht1, tf, ht2⟩ := cFacetLoop_add orc src.facets 0
      (cVertexLoop orc src.finiteVertices 0 dst emptyVMap [Ev.begin]).vmap
      (cVertexLoop orc src.finiteVertices 0 dst emptyVMap [Ev.begin]).mesh
      (cVertexLoop orc src.finiteVertices 0 dst emptyVMap [Ev.begin]).trace
    rcases he2 : (cFacetLoop orc src.facets 0
      (cVertexLoop orc src.finiteVertices 0 dst emptyVMap [Ev.begin]).vmap
      (cVertexLoop orc src.finiteVertices 0 dst emptyVMap [Ev.begin]).mesh
      (cVertexLoop orc src.finiteVertices 0 dst emptyVMap [Ev.begin]).trace).err with _ | e2
    · rw [exportMeshC_eqC orc src dst he he2]
      exact ⟨tv, tf, by rw [ht1, hv1], by rw [ht2, hv2]⟩
    · rw [exportMeshC_eqB orc src dst e2 he he2]
      exact ⟨tv, tf, by rw [ht1, hv1], by rw [ht2, hv2]⟩
  · rw [exportMeshC_eqA orc src dst e he]
    exact ⟨tv, [], by rw [hv1], by rw [hv2]; simp⟩

lemma bVertexLoop_err (orc : Oracle) :
    ∀ (l : List (Vec3 × Vec3)) (i : Nat) (m : Mesh) (hs : List Nat) (tr : List Ev),
    (bVertexLoop orc l i m hs tr).err = none ∨
    (bVertexLoop orc l i m hs tr).err = some .vertexB := by
  intro l
  induction l with
  | nil => intro i m hs tr; left; simp [bVertexLoop]
  | cons v rest ih =>
    rcases v with ⟨p, nrm⟩
    intro i m hs tr
    by_cases hv : orc.vOk i
    · simpa [bVertexLoop, addVertex, hv] using ih (i + 1) _ _ _
    · right; simp [bVertexLoop, addVertex, hv]

lemma bTriLoop_err (orc : Oracle) :
    ∀ (l : List TRIANGLE) (k : Nat) (hs : List Nat) (m : Mesh) (tr : List Ev),
    (bTriLoop orc l k hs m tr).err = none ∨
    (bTriLoop orc l k hs m tr).err = some .triIndex ∨
    (bTriLoop orc l k hs m tr).err = some .faceB := by
  intro l
  induction l with
  | nil => intro k hs m tr; left; simp [bTriLoop]
  | cons t rest ih =>
    intro k hs m tr
    by_cases hr : triInRange t hs.length
    · by_cases hf : orc.fOk k
      · simpa [bTriLoop, bTriStep, addFace, hr, hf] using ih (k + 1) _ _ _
      · right; right; simp [bTriLoop, bTriStep, addFace, hr, hf]
    · right; left; simp [bTriLoop, bTriStep, hr]

lemma cVertexLoop_err (orc : Oracle) :
    ∀ (l : List (Nat × Vec3)) (k : Nat) (m : Mesh) (vm : Nat → Option Nat) (tr : List Ev),
    (cVertexLoop orc l k m vm tr).err = none ∨
    (cVertexLoop orc l k m vm tr).err = some .vertexC := by
  intro l
  induction l with
  | nil => intro k m vm tr; left; simp [cVertexLoop]
  | cons v rest ih =>
    rcases v with ⟨vh, p⟩
    intro k m vm tr
    by_cases hv : orc.vOk k
    · simpa [cVertexLoop, addVertex, hv] using ih (k + 1) _ _ _
    · right; simp [cVertexLoop, addVertex, hv]

lemma cVertexLoop_ok (orc : Oracle) :
    ∀ (l : List (Nat × Vec3)) (k : Nat) (m : Mesh) (vm : Nat → Option Nat) (tr : List Ev),
    (cVertexLoop orc l k m vm tr).err = none →
    (cVertexLoop orc l k m vm tr).mesh.vertices.length = m.vertices.length + l.length ∧
    (cVertexLoop orc l k m vm tr).mesh.faces = m.faces := by
  intro l
  induction l with
  | nil => intro k m vm tr _; simp [cVertexLoop]
  | cons v rest ih =>
    rcases v with ⟨vh, p⟩
    intro k m vm tr h
    by_cases hv : orc.vOk k
    · rw [show cVertexLoop orc ((vh, p) :: rest) k m vm tr =
          cVertexLoop orc rest (k + 1) ⟨m.vertices ++ [⟨p, none, none⟩], m.faces⟩
            (vmapInsert vm vh m.vertices.length)
            (tr ++ [Ev.addVertex p none none true]) by
        simp [cVertexLoop, addVertex, hv]] at h ⊢
      obtain ⟨h1, h2⟩ := ih (k + 1) _ _ _ h
      exact ⟨by rw [h1]; simp; omega, h2⟩
    · simp [cVertexLoop, addVertex, hv] at h

lemma cVertexLoop_vmap_mono (orc : Oracle) :
    ∀ (l : List (Nat × Vec3)) (k : Nat) (m : Mesh) (vm : Nat → Option Nat) (tr : List Ev)
      (x : Nat), (vm x).isSome = true →
    (((cVertexLoop orc l k m vm tr).vmap) x).isSome = true := by
  intro l
  induction l with
  | nil => intro k m vm tr x hx; simpa [cVertexLoop] using hx
  | cons v rest ih =>
    rcases v with ⟨vh, p⟩
    intro k m vm tr x hx
    by_cases hv : orc.vOk k
    · rw [show cVertexLoop orc ((vh, p) :: rest) k m vm tr =
          cVertexLoop orc rest (k + 1) ⟨m.vertices ++ [⟨p, none, none⟩], m.faces⟩
            (vmapInsert vm vh m.vertices.length)
            (tr ++ [Ev.addVertex p none none true]) by
        simp [cVertexLoop, addVertex, hv]]
      refine ih (k + 1) _ _ _ x ?_
      by_cases hxv : x = vh <;> simp [vmapInsert, hxv, hx]
    · simpa [cVertexLoop, addVertex, hv] using hx

lemma cVertexLoop_covers (orc : Oracle) :
    ∀ (l : List (Nat × Vec3)) (k : Nat) (m : Mesh) (vm : Nat → Option Nat) (tr : List Ev),
    (cVertexLoop orc l k m vm tr).err = none →
    ∀ vh ∈ l.map Prod.fst, (((cVertexLoop orc l k m vm tr).vmap) vh).isSome = true := by
  intro l
  induction l with
  | nil => intro k m vm tr _ vh hvh; simp at hvh
  | cons v rest ih =>
    rcases v with ⟨vh0, p⟩
    intro k m vm tr h vh hvh
    by_cases hv : orc.vOk k
    · rw [show cVertexLoop orc ((vh0, p) :: rest) k m vm tr =
          cVertexLoop orc rest (k + 1) ⟨m.vertices ++ [⟨p, none, none⟩], m.faces⟩
            (vmapInsert vm vh0 m.vertices.length)
            (tr ++ [Ev.addVertex p none none true]) by
        simp [cVertexLoop, addVertex, hv]] at h ⊢
      simp at hvh
      rcases hvh with hvh | hvh
      · subst hvh
        exact cVertexLoop_vmap_mono orc rest (k + 1) _ _ _ vh (by simp [vmapInsert])
      · exact ih (k + 1) _ _ _ h vh (by simpa using hvh)
    · simp [cVertexLoop, addVertex, hv] at h

lemma lookupHandles_isSome (vm : Nat → Option Nat) (c : Cell) :
    ∀ (idxs : List Nat), (∀ i ∈ idxs, (vm (c.vertex i)).isSome = true) →
    (lookupHandles vm c idxs).isSome = true := by
  intro idxs
  induction idxs with
  | nil => intro _; simp [lookupHandles]
  | cons i rest ih =>
    intro h
    obtain ⟨x, hx⟩ := Option.isSome_iff_exists.mp (h i (by simp))
    have hrest := ih (fun j hj => h j (by simp [hj]))
    obtain ⟨l, hl⟩ := Option.isSome_iff_exists.mp hrest
    simp [lookupHandles, hx, hl]

lemma cFacetStep_err (orc : Oracle) (k : Nat) (fc : Facet) (vm : Nat → Option Nat)
    (m : Mesh) (tr : List Ev) :
    (cFacetStep orc k fc vm m tr).err = none ∨
    (cFacetStep orc k fc vm m tr).err = some .unmapped ∨
    (cFacetStep orc k fc vm m tr).err = some .faceC := by
  rcases hl : lookupHandles vm fc.cell (facetVertexIndices fc.index) with _ | hs
  · right; left; simp [cFacetStep, hl]
  · by_cases hf : orc.fOk k
    · left; simp [cFacetStep, hl, addFace, hf]
    · right; right; simp [cFacetStep, hl, addFace, hf]

lemma cFacetLoop_no_unmapped (orc : Oracle) :
    ∀ (l : List Facet) (k : Nat) (vm : Nat → Option Nat) (m : Mesh) (tr : List Ev),
    (∀ fc ∈ l, ∀ i ∈ facetVertexIndices fc.index, (vm (fc.cell.vertex i)).isSome = true) →
    (cFacetLoop orc l k vm m tr).err ≠ some .unmapped := by
  intro l
  induction l with
  | nil => intro k vm m tr _; simp [cFacetLoop]
  | cons fc rest ih =>
    intro k vm m tr h
    have hlk : (lookupHandles vm fc.cell (facetVertexIndices fc.index)).isSome = true :=
      lookupHandles_isSome vm fc.cell _ (h fc (by simp))
    obtain ⟨hs, hhs⟩ := Option.isSome_iff_exists.mp hlk
    by_cases hf : orc.fOk k
    · have hstep : cFacetStep orc k fc vm m tr =
          ⟨⟨m.vertices, m.faces ++ [⟨hs.getD 0 0, hs.getD 1 0, hs.getD 2 0⟩]⟩,
           tr ++ [Ev.addFace (hs.getD 0 0) (hs.getD 1 0) (hs.getD 2 0) true], none⟩ := by
        simp [cFacetStep, hhs, addFace, hf]
      rw [show cFacetLoop orc (fc :: rest) k vm m tr =
          cFacetLoop orc rest (k + 1) vm (cFacetStep orc k fc vm m tr).mesh
            (cFacetStep orc k fc vm m tr).trace by
        simp [cFacetLoop]; rw [hstep]]
      exact ih (k + 1) vm _ _ (fun fc2 h2 => h fc2 (by simp [h2]))
    · have hstep : cFacetStep orc k fc vm m tr =
          ⟨m, tr ++ [Ev.addFace (hs.getD 0 0) (hs.getD 1 0) (hs.getD 2 0) false], some .faceC⟩ := by
        simp [cFacetStep, hhs, addFace, hf]
      rw [show cFacetLoop orc (fc :: rest) k vm m tr =
          ⟨(cFacetStep orc k fc vm m tr).mesh, (cFacetStep orc k fc vm m tr).trace,
           some .faceC⟩ by
        simp [cFacetLoop]; rw [hstep]]
      simp

/-! ### Claim theorems -/

/-- C1 (counterexample): the claim asserts that on either entry point a null
functor pointer makes the evaluator-adapter construction fail with a fatal
precondition error.  On the Boissonnat-Oudot path this is false: `CgalEval`'s
constructor (header line 90) performs no null check, so with a null functor
the adapter is constructed successfully (it stores the null pointer) and the
whole call completes without any precondition error. -/
theorem claim_C1_counterexample :
    (mkCgalEval Unit none).func = none ∧
    (meshBoissonnatOudot Unit none ⟨⟨0, 0, 0⟩, 1⟩ ⟨-1, -1, -1⟩ (fun q => q)
      (fun _ => ⟨[], []⟩) ⟨fun _ => true, fun _ => true⟩ ⟨[], []⟩).out.err = none :=
  ⟨rfl, rfl⟩

/-- C1 (amended): on the Bloomenthal path a null functor fails fast with the
fatal precondition error before any reconstruction work (the entry point
returns the error and nothing else happens), and a non-null functor
constructs successfully; on the Boissonnat-Oudot path the `CgalEval`
adapter construction performs no null check and always succeeds, storing
the pointer as given. -/
theorem claim_C1 : ∀ (F : Type) (ball : Ball3) (seed : Vec3) (opts : OptionsBloomenthal)
    (march : PolygonizerConfig → Polygonizer) (orc : Oracle) (dst : Mesh),
    meshBloomenthal F none ball seed opts march orc dst = .error .nullFunc ∧
    (∀ f : F, ∃ r, meshBloomenthal F (some f) ball seed opts march orc dst = .ok r) ∧
    mkBloomenthalEval F none = .error .nullFunc ∧
    (∀ func : Option F, (mkCgalEval F func).func = func) := by
  intro F ball seed opts march orc dst
  exact ⟨rfl, fun f => ⟨_, rfl⟩, rfl, fun func => rfl⟩

/-- C2: for every non-null functor, `meshBloomenthal` constructs the
polygonizer with cell size `radius / 10` when `cell_size` is negative and
`cell_size` itself otherwise, and with step budget `10` when
`max_search_steps` is negative and the given value otherwise (header lines
190-192); the export then runs on the polygonizer output for exactly that
configuration. -/
theorem claim_C2 : ∀ (F : Type) (f : F) (ball : Ball3) (seed : Vec3)
    (opts : OptionsBloomenthal) (march : PolygonizerConfig → Polygonizer)
    (orc : Oracle) (dst : Mesh),
    ∃ r, meshBloomenthal F (some f) ball seed opts march orc dst = .ok r ∧
      r.config.size = (if opts.cell_size < 0 then ball.getRadius / 10 else opts.cell_size) ∧
      r.config.bounds = (if opts.max_search_steps < 0 then 10 else opts.max_search_steps) ∧
      r.config.tetrahedralize_cubes = opts.tetrahedralize_cubes ∧
      r.out = exportMeshB orc (march r.config) dst := by
  intro F f ball seed opts march orc dst
  exact ⟨_, rfl, rfl, rfl, rfl, rfl⟩

/-- C3: `meshBoissonnatOudot` builds the refinement criteria with facet
angle `30` when `min_facet_angle` is negative and the radians-to-degrees
conversion of `min_facet_angle` otherwise, facet size `0.1` when
`min_delaunay_radius` is negative and the given value otherwise, facet
distance `0.1` when `min_center_separation` is negative and the given value
otherwise, and a cell radius-edge ratio that is always `2.0` (header lines
241-245). -/
theorem claim_C3 : ∀ (F : Type) (func : Option F) (ball : Ball3)
    (opts : OptionsBoissonnatOudot) (r2d : ℚ → ℚ) (makeMesh : MeshCriteria → C3t3)
    (orc : Oracle) (dst : Mesh),
    (meshBoissonnatOudot F func ball opts r2d makeMesh orc dst).criteria =
      ⟨(if opts.min_facet_angle < 0 then 30 else r2d opts.min_facet_angle),
       (if opts.min_delaunay_radius < 0 then 1/10 else opts.min_delaunay_radius),
       (if opts.min_center_separation < 0 then 1/10 else opts.min_center_separation),
       2⟩ := by
  intro F func ball opts r2d makeMesh orc dst
  rfl

/-- C9: neither entry point removes or overwrites content already present
in the caller-supplied target mesh: every vertex and face present before the
call is still present (as a list-extension) after it, on success and on
failure alike. -/
theorem claim_C9 :
    (∀ (F : Type) (func : Option F) (ball : Ball3) (seed : Vec3)
       (opts : OptionsBloomenthal) (march : PolygonizerConfig → Polygonizer)
       (orc : Oracle) (dst : Mesh) (r : MBResult),
       meshBloomenthal F func ball seed opts march orc dst = .ok r →
       ∃ tv tf, r.out.mesh.vertices = dst.vertices ++ tv ∧
         r.out.mesh.faces = dst.faces ++ tf) ∧
    (∀ (F : Type) (func : Option F) (ball : Ball3) (opts : OptionsBoissonnatOudot)
       (r2d : ℚ → ℚ) (makeMesh : MeshCriteria → C3t3) (orc : Oracle) (dst : Mesh),
       ∃ tv tf,
         (meshBoissonnatOudot F func ball opts r2d makeMesh orc dst).out.mesh.vertices =
           dst.vertices ++ tv ∧
         (meshBoissonnatOudot F func ball opts r2d makeMesh orc dst).out.mesh.faces =
           dst.faces ++ tf) := by
  constructor
  · intro F func ball seed opts march orc dst r h
    rcases func with _ | f
    · exact absurd h (by simp [meshBloomenthal, mkBloomenthalEval])
    · simp only [meshBloomenthal, mkBloomenthalEval, Option.isSome_some, if_true,
        Except.ok.injEq] at h
      subst h
      exact exportMeshB_add orc _ dst
  · intro F func ball opts r2d makeMesh orc dst
    exact exportMeshC_add orc _ dst

/-- C9 witness: a concrete successful `meshBloomenthal` call on an empty
polygonizer output extends an empty target mesh additively. -/
theorem claim_C9_witness :
    ∃ tv tf,
      (exportMeshB ⟨fun _ => true, fun _ => true⟩ ⟨[], []⟩ ⟨[], []⟩).mesh.vertices =
        ([] : List MVertex) ++ tv ∧
      (exportMeshB ⟨fun _ => true, fun _ => true⟩ ⟨[], []⟩ ⟨[], []⟩).mesh.faces =
        ([] : List MFace) ++ tf := by
  have h := claim_C9.1 Unit (some ()) ⟨⟨0, 0, 0⟩, 10⟩ ⟨1, 0, 0⟩ ⟨1, 5, false⟩
    (fun _ => ⟨[], []⟩) ⟨fun _ => true, fun _ => true⟩ ⟨[], []⟩
    ⟨⟨1, 5, false, ⟨1, 0, 0⟩⟩,
     exportMeshB ⟨fun _ => true, fun _ => true⟩ ⟨[], []⟩ ⟨[], []⟩⟩ rfl
  exact h

/-- C10: on an empty reconstruction result both export adapters complete
successfully: `begin` and `end` are still called, no vertex or face is
added, and no error is raised. -/
theorem claim_C10 : ∀ (orc : Oracle) (dst : Mesh),
    exportMeshB orc ⟨[], []⟩ dst = ⟨dst, [], [Ev.begin, Ev.endB], none⟩ ∧
    (exportMeshC orc ⟨[], []⟩ dst).mesh = dst ∧
    (exportMeshC orc ⟨[], []⟩ dst).trace = [Ev.begin, Ev.endB] ∧
    (exportMeshC orc ⟨[], []⟩ dst).err = none := by
  intro orc dst
  exact ⟨rfl, rfl, rfl, rfl⟩

/-- C4: whenever the Bloomenthal export succeeds, it inserted exactly one
target-mesh vertex per raw vertex, in raw index order — the handle at
sequence position `i` is the handle returned for raw vertex `i` (the `i`-th
consecutive handle) — and exactly one face per raw triangle, so the exported
vertex and face counts equal the raw counts. -/
theorem claim_C4 : ∀ (orc : Oracle) (poly : Polygonizer) (dst : Mesh),
    (exportMeshB orc poly dst).err = none →
    (exportMeshB orc poly dst).handles = seqFrom dst.vertices.length poly.vertices.length ∧
    (∀ i, i < poly.vertices.length →
       (exportMeshB orc poly dst).handles.getD i 0 = dst.vertices.length + i) ∧
    (exportMeshB orc poly dst).mesh.vertices.length =
      dst.vertices.length + poly.vertices.length ∧
    (exportMeshB orc poly dst).mesh.faces.length =
      dst.faces.length + poly.triangles.length := by
  intro orc poly dst h
  rcases he : (bVertexLoop orc poly.vertices 0 dst [] [Ev.begin]).err with _ | e
  · rcases he2 : (bTriLoop orc poly.triangles 0
      (bVertexLoop orc poly.vertices 0 dst [] [Ev.begin]).handles
      (bVertexLoop orc poly.vertices 0 dst [] [Ev.begin]).mesh
      (bVertexLoop orc poly.vertices 0 dst [] [Ev.begin]).trace).err with _ | e2
    · obtain ⟨hh, hlen, hfac⟩ := bVertexLoop_ok orc poly.vertices 0 dst [] [Ev.begin] he
      obtain ⟨hfl, hvl⟩ := bTriLoop_ok orc poly.triangles 0 _ _ _ he2
      rw [exportMeshB_eqC orc poly dst he he2]
      refine ⟨by simpa using hh, ?_, ?_, ?_⟩
      · intro i hi
        simp only
        rw [hh]
        simpa using seqFrom_getD poly.vertices.length dst.vertices.length i hi
      · simp only
        rw [hvl, hlen]
      · simp only
        rw [hfl, hfac]
    · rw [exportMeshB_eqB orc poly dst e2 he he2] at h
      simp at h
  · rw [exportMeshB_eqA orc poly dst e he] at h
    simp at h

/-- C4 witness: a one-vertex one-triangle polygonizer output exported into
an empty mesh with an always-accepting builder. -/
theorem claim_C4_witness :
    (exportMeshB ⟨fun _ => true, fun _ => true⟩
        ⟨[(⟨0, 0, 0⟩, ⟨0, 0, 1⟩)], [⟨0, 0, 0⟩]⟩ ⟨[], []⟩).handles = seqFrom 0 1 ∧
    (∀ i, i < 1 →
       (exportMeshB ⟨fun _ => true, fun _ => true⟩
          ⟨[(⟨0, 0, 0⟩, ⟨0, 0, 1⟩)], [⟨0, 0, 0⟩]⟩ ⟨[], []⟩).handles.getD i 0 = 0 + i) ∧
    (exportMeshB ⟨fun _ => true, fun _ => true⟩
        ⟨[(⟨0, 0, 0⟩, ⟨0, 0, 1⟩)], [⟨0, 0, 0⟩]⟩ ⟨[], []⟩).mesh.vertices.length = 0 + 1 ∧
    (exportMeshB ⟨fun _ => true, fun _ => true⟩
        ⟨[(⟨0, 0, 0⟩, ⟨0, 0, 1⟩)], [⟨0, 0, 0⟩]⟩ ⟨[], []⟩).mesh.faces.length = 0 + 1 :=
  claim_C4 ⟨fun _ => true, fun _ => true⟩
    ⟨[(⟨0, 0, 0⟩, ⟨0, 0, 1⟩)], [⟨0, 0, 0⟩]⟩ ⟨[], []⟩ (by decide)

/-- C5: for every raw triangle processed by the continuation export, an
out-of-range vertex index (outside `[0, vertexCount)`) raises the fatal
integrity error with nothing inserted and the trace unchanged — the triangle
is never clamped, skipped, or partially inserted — while a fully in-range
triangle never takes that error branch: its face insertion is attempted with
exactly the handles at those indices, succeeding when the builder accepts it
and raising the insertion error otherwise. -/
theorem claim_C5 : ∀ (orc : Oracle) (k : Nat) (t : TRIANGLE) (hs : List Nat)
    (m : Mesh) (tr : List Ev),
    (triInRange t hs.length = false → bTriStep orc k t hs m tr = ⟨m, tr, some .triIndex⟩) ∧
    (triInRange t hs.length = true →
       (bTriStep orc k t hs m tr).err ≠ some .triIndex ∧
       (bTriStep orc k t hs m tr).trace = tr ++
         [Ev.addFace (hs.getD t.v0.toNat 0) (hs.getD t.v1.toNat 0) (hs.getD t.v2.toNat 0)
           (orc.fOk k)] ∧
       (orc.fOk k = true →
          (bTriStep orc k t hs m tr).mesh.faces = m.faces ++
            [⟨hs.getD t.v0.toNat 0, hs.getD t.v1.toNat 0, hs.getD t.v2.toNat 0⟩] ∧
          (bTriStep orc k t hs m tr).err = none) ∧
       (orc.fOk k = false →
          (bTriStep orc k t hs m tr).mesh = m ∧
          (bTriStep orc k t hs m tr).err = some .faceB)) := by
  intro orc k t hs m tr
  constructor
  · intro hr
    simp [bTriStep, hr]
  · intro hr
    cases hf : orc.fOk k
    · exact ⟨by simp [bTriStep, addFace, hr, hf], by simp [bTriStep, addFace, hr, hf],
        fun h => by simp at h, fun _ => ⟨by simp [bTriStep, addFace, hr, hf],
        by simp [bTriStep, addFace, hr, hf]⟩⟩
    · exact ⟨by simp [bTriStep, addFace, hr, hf], by simp [bTriStep, addFace, hr, hf],
        fun _ => ⟨by simp [bTriStep, addFace, hr, hf], by simp [bTriStep, addFace, hr, hf]⟩,
        fun h => by simp at h⟩

/-- C5 witness: a triangle with index 5 against one handle trips the range
error; the in-range triangle `(0,0,0)` never does. -/
theorem claim_C5_witness :
    bTriStep ⟨fun _ => true, fun _ => true⟩ 0 ⟨5, 0, 0⟩ [7] ⟨[], []⟩ [] =
      ⟨⟨[], []⟩, [], some .triIndex⟩ ∧
    (bTriStep ⟨fun _ => true, fun _ => true⟩ 0 ⟨0, 0, 0⟩ [7] ⟨[], []⟩ []).err ≠
      some .triIndex :=
  ⟨(claim_C5 ⟨fun _ => true, fun _ => true⟩ 0 ⟨5, 0, 0⟩ [7] ⟨[], []⟩ []).1 (by decide),
   ((claim_C5 ⟨fun _ => true, fun _ => true⟩ 0 ⟨0, 0, 0⟩ [7] ⟨[], []⟩ []).2 (by decide)).1⟩

lemma cFacetStep_eq (orc : Oracle) (k : Nat) (c : Cell) (f : Nat) (vm : Nat → Option Nat)
    (m : Mesh) (tr : List Ev) (a b d x y z : Nat)
    (hidx : facetVertexIndices f = [a, b, d])
    (ha : vm (c.vertex a) = some x) (hb : vm (c.vertex b) = some y)
    (hd : vm (c.vertex d) = some z) :
    cFacetStep orc k ⟨c, f⟩ vm m tr =
      if orc.fOk k then
        ⟨⟨m.vertices, m.faces ++ [⟨x, y, z⟩]⟩, tr ++ [Ev.addFace x y z true], none⟩
      else ⟨m, tr ++ [Ev.addFace x y z false], some .faceC⟩ := by
  have hlk : lookupHandles vm c (facetVertexIndices f) = some [x, y, z] := by
    rw [hidx]; simp [lookupHandles, ha, hb, hd]
  by_cases hf : orc.fOk k <;> simp [cFacetStep, hlk, addFace, hf]

lemma cFacetStep_corners (orc : Oracle) (k : Nat) (c : Cell) (vm : Nat → Option Nat)
    (m : Mesh) (tr : List Ev) (f a b d : Nat)
    (hidx : facetVertexIndices f = [a, b, d])
    (h0 : otherIdx f 0 = a) (h1 : otherIdx f 1 = b) (h2 : otherIdx f 2 = d)
    (hA : a ≠ f) (hB : b ≠ f) (hD : d ≠ f)
    (hvm : ∀ i, i < 4 → (vm (c.vertex i)).isSome = true)
    (ha4 : a < 4) (hb4 : b < 4) (hd4 : d < 4) :
    facetVertexIndices f = [otherIdx f 0, otherIdx f 1, otherIdx f 2] ∧
    otherIdx f 0 ≠ f ∧ otherIdx f 1 ≠ f ∧ otherIdx f 2 ≠ f ∧
    (cFacetStep orc k ⟨c, f⟩ vm m tr).trace = tr ++
      [Ev.addFace ((vm (c.vertex (otherIdx f 0))).getD 0)
                  ((vm (c.vertex (otherIdx f 1))).getD 0)
                  ((vm (c.vertex (otherIdx f 2))).getD 0) (orc.fOk k)] ∧
    (orc.fOk k = true →
       (cFacetStep orc k ⟨c, f⟩ vm m tr).mesh.faces = m.faces ++
         [⟨(vm (c.vertex (otherIdx f 0))).getD 0,
           (vm (c.vertex (otherIdx f 1))).getD 0,
           (vm (c.vertex (otherIdx f 2))).getD 0⟩]) := by
  obtain ⟨x, hx⟩ := Option.isSome_iff_exists.mp (hvm a ha4)
  obtain ⟨y, hy⟩ := Option.isSome_iff_exists.mp (hvm b hb4)
  obtain ⟨z, hz⟩ := Option.isSome_iff_exists.mp (hvm d hd4)
  refine ⟨by rw [hidx, h0, h1, h2], by rw [h0]; exact hA, by rw [h1]; exact hB,
    by rw [h2]; exact hD, ?_, ?_⟩
  · rw [cFacetStep_eq orc k c f vm m tr a b d x y z hidx hx hy hz, h0, h1, h2, hx, hy, hz]
    cases hfk : orc.fOk k <;> simp [hfk]
  · intro hfk
    rw [cFacetStep_eq orc k c f vm m tr a b d x y z hidx hx hy hz, h0, h1, h2, hx, hy, hz,
      hfk]
    simp

/-- C7: for every facet encoded as a cell plus the index (0..3) of the
opposite cell vertex, the refinement export derives the three corner indices
as exactly the indices in 0..3 other than the opposite one and emits a
triangle whose vertices are exactly the identity-map images of the cell's
corners at those indices. -/
theorem claim_C7 : ∀ (orc : Oracle) (k : Nat) (c : Cell) (f : Nat)
    (vm : Nat → Option Nat) (m : Mesh) (tr : List Ev),
    f < 4 →
    (∀ i, i < 4 → (vm (c.vertex i)).isSome = true) →
    facetVertexIndices f = [otherIdx f 0, otherIdx f 1, otherIdx f 2] ∧
    otherIdx f 0 ≠ f ∧ otherIdx f 1 ≠ f ∧ otherIdx f 2 ≠ f ∧
    (cFacetStep orc k ⟨c, f⟩ vm m tr).trace = tr ++
      [Ev.addFace ((vm (c.vertex (otherIdx f 0))).getD 0)
                  ((vm (c.vertex (otherIdx f 1))).getD 0)
                  ((vm (c.vertex (otherIdx f 2))).getD 0) (orc.fOk k)] ∧
    (orc.fOk k = true →
       (cFacetStep orc k ⟨c, f⟩ vm m tr).mesh.faces = m.faces ++
         [⟨(vm (c.vertex (otherIdx f 0))).getD 0,
           (vm (c.vertex (otherIdx f 1))).getD 0,
           (vm (c.vertex (otherIdx f 2))).getD 0⟩]) := by
  intro orc k c f vm m tr hf4 hvm
  interval_cases f
  · exact cFacetStep_corners orc k c vm m tr 0 1 2 3 (by decide) (by decide) (by decide)
      (by decide) (by decide) (by decide) (by decide) hvm (by decide) (by decide) (by decide)
  · exact cFacetStep_corners orc k c vm m tr 1 0 2 3 (by decide) (by decide) (by decide)
      (by decide) (by decide) (by decide) (by decide) hvm (by decide) (by decide) (by decide)
  · exact cFacetStep_corners orc k c vm m tr 2 0 1 3 (by decide) (by decide) (by decide)
      (by decide) (by decide) (by decide) (by decide) hvm (by decide) (by decide) (by decide)
  · exact cFacetStep_corners orc k c vm m tr 3 0 1 2 (by decide) (by decide) (by decide)
      (by decide) (by decide) (by decide) (by decide) hvm (by decide) (by decide) (by decide)

/-- C7 witness: facet `(cell ⟨10,11,12,13⟩, opposite index 0)` with the
identity map sending every vertex identity `x` to handle `x`. -/
theorem claim_C7_witness :
    facetVertexIndices 0 = [1, 2, 3] ∧
    (1 : Nat) ≠ 0 ∧ (2 : Nat) ≠ 0 ∧ (3 : Nat) ≠ 0 ∧
    (cFacetStep ⟨fun _ => true, fun _ => true⟩ 0 ⟨⟨10, 11, 12, 13⟩, 0⟩ (fun x => some x)
        ⟨[], []⟩ []).trace = [Ev.addFace 11 12 13 true] ∧
    (true = true →
       (cFacetStep ⟨fun _ => true, fun _ => true⟩ 0 ⟨⟨10, 11, 12, 13⟩, 0⟩ (fun x => some x)
          ⟨[], []⟩ []).mesh.faces = [⟨11, 12, 13⟩]) :=
  claim_C7 ⟨fun _ => true, fun _ => true⟩ 0 ⟨10, 11, 12, 13⟩ 0 (fun x => some x) ⟨[], []⟩ []
    (by decide) (fun i _ => rfl)

lemma isAddF_of_isAddV {e : Ev} (h : isAddV e = true) : isAddF e = false := by
  cases e <;> simp_all [isAddV, isAddF]

lemma isAddV_of_isAddF {e : Ev} (h : isAddF e = true) : isAddV e = false := by
  cases e <;> simp_all [isAddV, isAddF]

lemma bVertexLoop_shape (orc : Oracle) :
    ∀ (l : List (Vec3 × Vec3)) (i : Nat) (m : Mesh) (hs : List Nat) (tr : List Ev),
    ∃ t, (bVertexLoop orc l i m hs tr).trace = tr ++ t ∧
      (∀ e ∈ t, isAddV e = true) ∧
      t.length ≤ l.length ∧
      (bVertexLoop orc l i m hs tr).mesh.vertices.length =
        m.vertices.length + (t.filter evValid).length ∧
      (bVertexLoop orc l i m hs tr).mesh.faces = m.faces ∧
      ((bVertexLoop orc l i m hs tr).err = none → ∀ e ∈ t, evValid e = true) ∧
      ((bVertexLoop orc l i m hs tr).err ≠ none →
        ∃ t0 ev, t = t0 ++ [ev] ∧ (∀ e ∈ t0, evValid e = true) ∧ evValid ev = false) := by
  intro l
  induction l with
  | nil =>
    intro i m hs tr
    exact ⟨[], by simp [bVertexLoop], by simp, by simp, by simp [bVertexLoop],
      by simp [bVertexLoop], fun _ => by simp, fun h => absurd (by simp [bVertexLoop]) h⟩
  | cons v rest ih =>
    rcases v with ⟨p, nrm⟩
    intro i m hs tr
    by_cases hv : orc.vOk i
    · have hstep : bVertexLoop orc ((p, nrm) :: rest) i m hs tr =
          bVertexLoop orc rest (i + 1) ⟨m.vertices ++ [⟨p, some (Int.ofNat i), some nrm⟩], m.faces⟩
            (hs ++ [m.vertices.length])
            (tr ++ [Ev.addVertex p (some (Int.ofNat i)) (some nrm) true]) := by
        simp [bVertexLoop, addVertex, hv]
      obtain ⟨t, h1, h2, h3, h4, h5, h6, h7⟩ := ih (i + 1)
        ⟨m.vertices ++ [⟨p, some (Int.ofNat i), some nrm⟩], m.faces⟩
        (hs ++ [m.vertices.length])
        (tr ++ [Ev.addVertex p (some (Int.ofNat i)) (some nrm) true])
      refine ⟨Ev.addVertex p (some (Int.ofNat i)) (some nrm) true :: t,
        ?_, ?_, ?_, ?_, ?_, ?_, ?_⟩
      · rw [hstep, h1]; simp
      · intro e he
        rcases List.mem_cons.mp he with he | he
        · subst he; rfl
        · exact h2 e he
      · simpa using Nat.succ_le_succ h3
      · rw [hstep, h4]
        simp [evValid, List.length_append]
        omega
      · rw [hstep, h5]
      · intro h e he
        rw [hstep] at h
        rcases List.mem_cons.mp he with he | he
        · subst he; rfl
        · exact h6 h e he
      · intro h
        rw [hstep] at h
        obtain ⟨t0, ev, ht, hval, hinv⟩ := h7 h
        refine ⟨Ev.addVertex p (some (Int.ofNat i)) (some nrm) true :: t0, ev,
          by rw [ht]; simp, ?_, hinv⟩
        intro e he
        rcases List.mem_cons.mp he with he | he
        · subst he; rfl
        · exact hval e he
    · have hstep : bVertexLoop orc ((p, nrm) :: rest) i m hs tr =
          ⟨m, hs, tr ++ [Ev.addVertex p (some (Int.ofNat i)) (some nrm) false],
           some .vertexB⟩ := by
        simp [bVertexLoop, addVertex, hv]
      refine ⟨[Ev.addVertex p (some (Int.ofNat i)) (some nrm) false],
        by rw [hstep], by simp [isAddV], by simp, by rw [hstep]; simp [evValid],
        by rw [hstep], ?_, ?_⟩
      · intro h; rw [hstep] at h; simp at h
      · intro _
        exact ⟨[], Ev.addVertex p (some (Int.ofNat i)) (some nrm) false, by simp,
          by simp, rfl⟩

lemma bTriLoop_shape (orc : Oracle) :
    ∀ (l : List TRIANGLE) (k : Nat) (hs : List Nat) (m : Mesh) (tr : List Ev),
    ∃ t, (bTriLoop orc l k hs m tr).trace = tr ++ t ∧
      (∀ e ∈ t, isAddF e = true) ∧
      t.length ≤ l.length ∧
      (bTriLoop orc l k hs m tr).mesh.faces.length =
        m.faces.length + (t.filter evValid).length ∧
      (bTriLoop orc l k hs m tr).mesh.vertices = m.vertices ∧
      ((bTriLoop orc l k hs m tr).err = none ∨
        (bTriLoop orc l k hs m tr).err = some .triIndex → ∀ e ∈ t, evValid e = true) ∧
      ((bTriLoop orc l k hs m tr).err = some .faceB →
        ∃ t0 ev, t = t0 ++ [ev] ∧ (∀ e ∈ t0, evValid e = true) ∧ evValid ev = false) := by
  intro l
  induction l with
  | nil =>
    intro k hs m tr
    exact ⟨[], by simp [bTriLoop], by simp, by simp, by simp [bTriLoop],
      by simp [bTriLoop], fun _ => by simp, fun h => by simp [bTriLoop] at h⟩
  | cons t rest ih =>
    intro k hs m tr
    by_cases hr : triInRange t hs.length
    · by_cases hf : orc.fOk k
      · have hstep : bTriLoop orc (t :: rest) k hs m tr =
            bTriLoop orc rest (k + 1) hs
              ⟨m.vertices, m.faces ++
                [⟨hs.getD t.v0.toNat 0, hs.getD t.v1.toNat 0, hs.getD t.v2.toNat 0⟩]⟩
              (tr ++ [Ev.addFace (hs.getD t.v0.toNat 0) (hs.getD t.v1.toNat 0)
                (hs.getD t.v2.toNat 0) true]) := by
          simp [bTriLoop, bTriStep, addFace, hr, hf]
        obtain ⟨tl, h1, h2, h3, h4, h5, h6, h7⟩ := ih (k + 1) hs
          ⟨m.vertices, m.faces ++
            [⟨hs.getD t.v0.toNat 0, hs.getD t.v1.toNat 0, hs.getD t.v2.toNat 0⟩]⟩
          (tr ++ [Ev.addFace (hs.getD t.v0.toNat 0) (hs.getD t.v1.toNat 0)
            (hs.getD t.v2.toNat 0) true])
        refine ⟨Ev.addFace (hs.getD t.v0.toNat 0) (hs.getD t.v1.toNat 0)
          (hs.getD t.v2.toNat 0) true :: tl, ?_, ?_, ?_, ?_, ?_, ?_, ?_⟩
        · rw [hstep, h1]; simp
        · intro e he
          rcases List.mem_cons.mp he with he | he
          · subst he; rfl
          · exact h2 e he
        · simpa using Nat.succ_le_succ h3
        · rw [hstep, h4]
          simp [evValid, List.length_append]
          omega
        · rw [hstep, h5]
        · intro h e he
          rw [hstep] at h
          rcases List.mem_cons.mp he with he | he
          · subst he; rfl
          · exact h6 h e he
        · intro h
          rw [hstep] at h
          obtain ⟨t0, ev, ht, hval, hinv⟩ := h7 h
          refine ⟨Ev.addFace (hs.getD t.v0.toNat 0) (hs.getD t.v1.toNat 0)
            (hs.getD t.v2.toNat 0) true :: t0, ev, by rw [ht]; simp, ?_, hinv⟩
          intro e he
          rcases List.mem_cons.mp he with he | he
          · subst he; rfl
          · exact hval e he
      · have hstep : bTriLoop orc (t :: rest) k hs m tr =
            ⟨m, tr ++ [Ev.addFace (hs.getD t.v0.toNat 0) (hs.getD t.v1.toNat 0)
              (hs.getD t.v2.toNat 0) false], some .faceB⟩ := by
          simp [bTriLoop, bTriStep, addFace, hr, hf]
        refine ⟨[Ev.addFace (hs.getD t.v0.toNat 0) (hs.getD t.v1.toNat 0)
          (hs.getD t.v2.toNat 0) false], by rw [hstep], by simp [isAddF], by simp,
          by rw [hstep]; simp [evValid], by rw [hstep], ?_, ?_⟩
        · intro h
          rw [hstep] at h
          rcases h with h | h <;> simp at h
        · intro _
          exact ⟨[], Ev.addFace (hs.getD t.v0.toNat 0) (hs.getD t.v1.toNat 0)
            (hs.getD t.v2.toNat 0) false, by simp, by simp, rfl⟩
    · have hstep : bTriLoop orc (t :: rest) k hs m tr = ⟨m, tr, some .triIndex⟩ := by
        simp [bTriLoop, bTriStep, hr]
      exact ⟨[], by rw [hstep]; simp, by simp, by simp, by rw [hstep]; simp,
        by rw [hstep], fun _ => by simp, fun h => by rw [hstep] at h; simp at h⟩

lemma cVertexLoop_shape (orc : Oracle) :
    ∀ (l : List (Nat × Vec3)) (k : Nat) (m : Mesh) (vm : Nat → Option Nat) (tr : List Ev),
    ∃ t, (cVertexLoop orc l k m vm tr).trace = tr ++ t ∧
      (∀ e ∈ t, isAddV e = true) ∧
      t.length ≤ l.length ∧
      (cVertexLoop orc l k m vm tr).mesh.vertices.length =
        m.vertices.length + (t.filter evValid).length ∧
      (cVertexLoop orc l k m vm tr).mesh.faces = m.faces ∧
      ((cVertexLoop orc l k m vm tr).err = none → ∀ e ∈ t, evValid e = true) ∧
      ((cVertexLoop orc l k m vm tr).err ≠ none →
        ∃ t0 ev, t = t0 ++ [ev] ∧ (∀ e ∈ t0, evValid e = true) ∧ evValid ev = false) := by
  intro l
  induction l with
  | nil =>
    intro k m vm tr
    exact ⟨[], by simp [cVertexLoop], by simp, by simp, by simp [cVertexLoop],
      by simp [cVertexLoop], fun _ => by simp, fun h => absurd (by simp [cVertexLoop]) h⟩
  | cons v rest ih =>
    rcases v with ⟨vh, p⟩
    intro k m vm tr
    by_cases hv : orc.vOk k
    · have hstep : cVertexLoop orc ((vh, p) :: rest) k m vm tr =
          cVertexLoop orc rest (k + 1) ⟨m.vertices ++ [⟨p, none, none⟩], m.faces⟩
            (vmapInsert vm vh m.vertices.length)
            (tr ++ [Ev.addVertex p none none true]) := by
        simp [cVertexLoop, addVertex, hv]
      obtain ⟨t, h1, h2, h3, h4, h5, h6, h7⟩ := ih (k + 1)
        ⟨m.vertices ++ [⟨p, none, none⟩], m.faces⟩
        (vmapInsert vm vh m.vertices.length)
        (tr ++ [Ev.addVertex p none none true])
      refine ⟨Ev.addVertex p none none true :: t, ?_, ?_, ?_, ?_, ?_, ?_, ?_⟩
      · rw [hstep, h1]; simp
      · intro e he
        rcases List.mem_cons.mp he with he | he
        · subst he; rfl
        · exact h2 e he
      · simpa using Nat.succ_le_succ h3
      · rw [hstep, h4]
        simp [evValid, List.length_append]
        omega
      · rw [hstep, h5]
      · intro h e he
        rw [hstep] at h
        rcases List.mem_cons.mp he with he | he
        · subst he; rfl
        · exact h6 h e he
      · intro h
        rw [hstep] at h
        obtain ⟨t0, ev, ht, hval, hinv⟩ := h7 h
        refine ⟨Ev.addVertex p none none true :: t0, ev, by rw [ht]; simp, ?_, hinv⟩
        intro e he
        rcases List.mem_cons.mp he with he | he
        · subst he; rfl
        · exact hval e he
    · have hstep : cVertexLoop orc ((vh, p) :: rest) k m vm tr =
          ⟨m, vm, tr ++ [Ev.addVertex p none none false], some .vertexC⟩ := by
        simp [cVertexLoop, addVertex, hv]
      refine ⟨[Ev.addVertex p none none false], by rw [hstep], by simp [isAddV], by simp,
        by rw [hstep]; simp [evValid], by rw [hstep], ?_, ?_⟩
      · intro h; rw [hstep] at h; simp at h
      · intro _
        exact ⟨[], Ev.addVertex p none none false, by simp, by simp, rfl⟩

lemma cFacetLoop_shape (orc : Oracle) :
    ∀ (l : List Facet) (k : Nat) (vm : Nat → Option Nat) (m : Mesh) (tr : List Ev),
    ∃ t, (cFacetLoop orc l k vm m tr).trace = tr ++ t ∧
      (∀ e ∈ t, isAddF e = true) ∧
      t.length ≤ l.length ∧
      (cFacetLoop orc l k vm m tr).mesh.faces.length =
        m.faces.length + (t.filter evValid).length ∧
      (cFacetLoop orc l k vm m tr).mesh.vertices = m.vertices ∧
      ((cFacetLoop orc l k vm m tr).err = none ∨
        (cFacetLoop orc l k vm m tr).err = some .unmapped → ∀ e ∈ t, evValid e = true) ∧
      ((cFacetLoop orc l k vm m tr).err = some .faceC →
        ∃ t0 ev, t = t0 ++ [ev] ∧ (∀ e ∈ t0, evValid e = true) ∧ evValid ev = false) := by
  intro l
  induction l with
  | nil =>
    intro k vm m tr
    exact ⟨[], by simp [cFacetLoop], by simp, by simp, by simp [cFacetLoop],
      by simp [cFacetLoop], fun _ => by simp, fun h => by simp [cFacetLoop] at h⟩
  | cons fc rest ih =>
    intro k vm m tr
    rcases hl : lookupHandles vm fc.cell (facetVertexIndices fc.index) with _ | hs
    · have hstep : cFacetLoop orc (fc :: rest) k vm m tr = ⟨m, tr, some .unmapped⟩ := by
        simp [cFacetLoop, cFacetStep, hl]
      exact ⟨[], by rw [hstep]; simp, by simp, by simp, by rw [hstep]; simp,
        by rw [hstep], fun _ => by simp, fun h => by rw [hstep] at h; simp at h⟩
    · by_cases hf : orc.fOk k
      · have hstep : cFacetLoop orc (fc :: rest) k vm m tr =
            cFacetLoop orc rest (k + 1) vm
              ⟨m.vertices, m.faces ++ [⟨hs.getD 0 0, hs.getD 1 0, hs.getD 2 0⟩]⟩
              (tr ++ [Ev.addFace (hs.getD 0 0) (hs.getD 1 0) (hs.getD 2 0) true]) := by
          simp [cFacetLoop, cFacetStep, hl, addFace, hf]
        obtain ⟨tl, h1, h2, h3, h4, h5, h6, h7⟩ := ih (k + 1) vm
          ⟨m.vertices, m.faces ++ [⟨hs.getD 0 0, hs.getD 1 0, hs.getD 2 0⟩]⟩
          (tr ++ [Ev.addFace (hs.getD 0 0) (hs.getD 1 0) (hs.getD 2 0) true])
        refine ⟨Ev.addFace (hs.getD 0 0) (hs.getD 1 0) (hs.getD 2 0) true :: tl,
          ?_, ?_, ?_, ?_, ?_, ?_, ?_⟩
        · rw [hstep, h1]; simp
        · intro e he
          rcases List.mem_cons.mp he with he | he
          · subst he; rfl
          · exact h2 e he
        · simpa using Nat.succ_le_succ h3
        · rw [hstep, h4]
          simp [evValid, List.length_append]
          omega
        · rw [hstep, h5]
        · intro h e he
          rw [hstep] at h
          rcases List.mem_cons.mp he with he | he
          · subst he; rfl
          · exact h6 h e he
        · intro h
          rw [hstep] at h
          obtain ⟨t0, ev, ht, hval, hinv⟩ := h7 h
          refine ⟨Ev.addFace (hs.getD 0 0) (hs.getD 1 0) (hs.getD 2 0) true :: t0, ev,
            by rw [ht]; simp, ?_, hinv⟩
          intro e he
          rcases List.mem_cons.mp he with he | he
          · subst he; rfl
          · exact hval e he
      · have hstep : cFacetLoop orc (fc :: rest) k vm m tr =
            ⟨m, tr ++ [Ev.addFace (hs.getD 0 0) (hs.getD 1 0) (hs.getD 2 0) false],
             some .faceC⟩ := by
          simp [cFacetLoop, cFacetStep, hl, addFace, hf]
        refine ⟨[Ev.addFace (hs.getD 0 0) (hs.getD 1 0) (hs.getD 2 0) false],
          by rw [hstep], by simp [isAddF], by simp, by rw [hstep]; simp [evValid],
          by rw [hstep], ?_, ?_⟩
        · intro h
          rw [hstep] at h
          rcases h with h | h <;> simp at h
        · intro _
          exact ⟨[], Ev.addFace (hs.getD 0 0) (hs.getD 1 0) (hs.getD 2 0) false,
            by simp, by simp, rfl⟩

lemma cFacetLoop_err (orc : Oracle) :
    ∀ (l : List Facet) (k : Nat) (vm : Nat → Option Nat) (m : Mesh) (tr : List Ev),
    (cFacetLoop orc l k vm m tr).err = none ∨
    (cFacetLoop orc l k vm m tr).err = some .unmapped ∨
    (cFacetLoop orc l k vm m tr).err = some .faceC := by
  intro l
  induction l with
  | nil => intro k vm m tr; left; simp [cFacetLoop]
  | cons fc rest ih =>
    intro k vm m tr
    rcases hl : lookupHandles vm fc.cell (facetVertexIndices fc.index) with _ | hs
    · right; left; simp [cFacetLoop, cFacetStep, hl]
    · by_cases hf : orc.fOk k
      · simpa [cFacetLoop, cFacetStep, hl, addFace, hf] using ih (k + 1) vm _ _
      · right; right; simp [cFacetLoop, cFacetStep, hl, addFace, hf]

lemma exportMeshB_eqA2 (orc : Oracle) (poly : Polygonizer) (dst : Mesh) (v : BVLoopRes)
    (hv : bVertexLoop orc poly.vertices 0 dst [] [Ev.begin] = v) (e : Err)
    (he : v.err = some e) :
    exportMeshB orc poly dst = ⟨v.mesh, v.handles, v.trace, some e⟩ := by
  subst hv; exact exportMeshB_eqA orc poly dst e he

lemma exportMeshB_eqB2 (orc : Oracle) (poly : Polygonizer) (dst : Mesh) (v : BVLoopRes)
    (hv : bVertexLoop orc poly.vertices 0 dst [] [Ev.begin] = v) (t : TLoopRes)
    (ht : bTriLoop orc poly.triangles 0 v.handles v.mesh v.trace = t)
    (hverr : v.err = none) (e : Err) (hterr : t.err = some e) :
    exportMeshB orc poly dst = ⟨t.mesh, v.handles, t.trace, some e⟩ := by
  subst hv; subst ht; exact exportMeshB_eqB orc poly dst e hverr hterr

lemma exportMeshB_eqC2 (orc : Oracle) (poly : Polygonizer) (dst : Mesh) (v : BVLoopRes)
    (hv : bVertexLoop orc poly.vertices 0 dst [] [Ev.begin] = v) (t : TLoopRes)
    (ht : bTriLoop orc poly.triangles 0 v.handles v.mesh v.trace = t)
    (hverr : v.err = none) (hterr : t.err = none) :
    exportMeshB orc poly dst = ⟨t.mesh, v.handles, t.trace ++ [Ev.endB], none⟩ := by
  subst hv; subst ht; exact exportMeshB_eqC orc poly dst hverr hterr

lemma exportMeshC_eqA2 (orc : Oracle) (src : C3t3) (dst : Mesh) (v : CVLoopRes)
    (hv : cVertexLoop orc src.finiteVertices 0 dst emptyVMap [Ev.begin] = v) (e : Err)
    (he : v.err = some e) :
    exportMeshC orc src dst = ⟨v.mesh, v.vmap, v.trace, some e⟩ := by
  subst hv; exact exportMeshC_eqA orc src dst e he

lemma exportMeshC_eqB2 (orc : Oracle) (src : C3t3) (dst : Mesh) (v : CVLoopRes)
    (hv : cVertexLoop orc src.finiteVertices 0 dst emptyVMap [Ev.begin] = v) (f : TLoopRes)
    (hf : cFacetLoop orc src.facets 0 v.vmap v.mesh v.trace = f)
    (hverr : v.err = none) (e : Err) (hferr : f.err = some e) :
    exportMeshC orc src dst = ⟨f.mesh, v.vmap, f.trace, some e⟩ := by
  subst hv; subst hf; exact exportMeshC_eqB orc src dst e hverr hferr

lemma exportMeshC_eqC2 (orc : Oracle) (src : C3t3) (dst : Mesh) (v : CVLoopRes)
    (hv : cVertexLoop orc src.finiteVertices 0 dst emptyVMap [Ev.begin] = v) (f : TLoopRes)
    (hf : cFacetLoop orc src.facets 0 v.vmap v.mesh v.trace = f)
    (hverr : v.err = none) (hferr : f.err = none) :
    exportMeshC orc src dst = ⟨f.mesh, v.vmap, f.trace ++ [Ev.endB], none⟩ := by
  subst hv; subst hf; exact exportMeshC_eqC orc src dst hverr hferr

lemma filterV_allV {t : List Ev} (h : ∀ e ∈ t, isAddV e = true) : t.filter isAddV = t :=
  List.filter_eq_self.mpr h

lemma filterV_allF {t : List Ev} (h : ∀ e ∈ t, isAddF e = true) : t.filter isAddV = [] :=
  List.filter_eq_nil_iff.mpr (fun e he => by simp [isAddV_of_isAddF (h e he)])

lemma filterF_allV {t : List Ev} (h : ∀ e ∈ t, isAddV e = true) : t.filter isAddF = [] :=
  List.filter_eq_nil_iff.mpr (fun e he => by simp [isAddF_of_isAddV (h e he)])

lemma filterF_allF {t : List Ev} (h : ∀ e ∈ t, isAddF e = true) : t.filter isAddF = t :=
  List.filter_eq_self.mpr h

lemma filterVE_allV {t : List Ev} (h : ∀ e ∈ t, isAddV e = true) :
    t.filter (fun e => isAddV e && evValid e) = t.filter evValid :=
  List.filter_congr (fun e he => by rw [h e he]; simp)

lemma filterVE_allF {t : List Ev} (h : ∀ e ∈ t, isAddF e = true) :
    t.filter (fun e => isAddV e && evValid e) = [] :=
  List.filter_eq_nil_iff.mpr (fun e he => by simp [isAddV_of_isAddF (h e he)])

lemma filterFE_allV {t : List Ev} (h : ∀ e ∈ t, isAddV e = true) :
    t.filter (fun e => isAddF e && evValid e) = [] :=
  List.filter_eq_nil_iff.mpr (fun e he => by simp [isAddF_of_isAddV (h e he)])

lemma filterFE_allF {t : List Ev} (h : ∀ e ∈ t, isAddF e = true) :
    t.filter (fun e => isAddF e && evValid e) = t.filter evValid :=
  List.filter_congr (fun e he => by rw [h e he]; simp)

lemma filters_begin :
    (([Ev.begin] : List Ev).filter isAddV = []) ∧
    (([Ev.begin] : List Ev).filter isAddF = []) ∧
    (([Ev.begin] : List Ev).filter (fun e => isAddV e && evValid e) = []) ∧
    (([Ev.begin] : List Ev).filter (fun e => isAddF e && evValid e) = []) :=
  ⟨rfl, rfl, rfl, rfl⟩

lemma filters_endB :
    (([Ev.endB] : List Ev).filter isAddV = []) ∧
    (([Ev.endB] : List Ev).filter isAddF = []) ∧
    (([Ev.endB] : List Ev).filter (fun e => isAddV e && evValid e) = []) ∧
    (([Ev.endB] : List Ev).filter (fun e => isAddF e && evValid e) = []) :=
  ⟨rfl, rfl, rfl, rfl⟩

lemma exportB_accounting (orc : Oracle) (poly : Polygonizer) (dst : Mesh) :
    (((exportMeshB orc poly dst).err = some .vertexB ∨
      (exportMeshB orc poly dst).err = some .faceB) →
      ∃ t ev, (exportMeshB orc poly dst).trace = (Ev.begin :: t) ++ [ev] ∧
        (∀ e ∈ t, evValid e = true) ∧ evValid ev = false) ∧
    ((exportMeshB orc poly dst).trace.filter isAddV).length ≤ poly.vertices.length ∧
    ((exportMeshB orc poly dst).trace.filter isAddF).length ≤ poly.triangles.length ∧
    (exportMeshB orc poly dst).mesh.vertices.length = dst.vertices.length +
      ((exportMeshB orc poly dst).trace.filter (fun e => isAddV e && evValid e)).length ∧
    (exportMeshB orc poly dst).mesh.faces.length = dst.faces.length +
      ((exportMeshB orc poly dst).trace.filter (fun e => isAddF e && evValid e)).length := by
  obtain ⟨tV, hV1, hV2, hV3, hV4, hV5, hV6, hV7⟩ :=
    bVertexLoop_shape orc poly.vertices 0 dst [] [Ev.begin]
  obtain ⟨tF, hF1, hF2, hF3, hF4, hF5, hF6, hF7⟩ :=
    bTriLoop_shape orc poly.triangles 0
      (bVertexLoop orc poly.vertices 0 dst [] [Ev.begin]).handles
      (bVertexLoop orc poly.vertices 0 dst [] [Ev.begin]).mesh
      (bVertexLoop orc poly.vertices 0 dst [] [Ev.begin]).trace
  have hclV := bVertexLoop_err orc poly.vertices 0 dst [] [Ev.begin]
  have hclF := bTriLoop_err orc poly.triangles 0
      (bVertexLoop orc poly.vertices 0 dst [] [Ev.begin]).handles
      (bVertexLoop orc poly.vertices 0 dst [] [Ev.begin]).mesh
      (bVertexLoop orc poly.vertices 0 dst [] [Ev.begin]).trace
  generalize hgv : bVertexLoop orc poly.vertices 0 dst [] [Ev.begin] = vres at *
  generalize hgt : bTriLoop orc poly.triangles 0 vres.handles vres.mesh vres.trace = tres at *
  rcases he : vres.err with _ | e
  · have hVval : ∀ e ∈ tV, evValid e = true := hV6 he
    rcases he2 : tres.err with _ | e2
    · rw [exportMeshB_eqC2 orc poly dst vres hgv tres hgt he he2]
      refine ⟨?_, ?_, ?_, ?_, ?_⟩
      · intro hOr; rcases hOr with h | h <;> simp at h
      · simp only [hF1, hV1, List.filter_append, List.length_append,
          filterV_allV hV2, filterV_allF hF2, filters_begin.1, filters_endB.1,
          List.length_nil]
        omega
      · simp only [hF1, hV1, List.filter_append, List.length_append,
          filterF_allV hV2, filterF_allF hF2, filters_begin.2.1, filters_endB.2.1,
          List.length_nil]
        omega
      · simp only [hF1, hV1, List.filter_append, List.length_append,
          filterVE_allV hV2, filterVE_allF hF2, filters_begin.2.2.1, filters_endB.2.2.1,
          List.length_nil]
        rw [hF5, hV4]
        omega
      · simp only [hF1, hV1, List.filter_append, List.length_append,
          filterFE_allV hV2, filterFE_allF hF2, filters_begin.2.2.2, filters_endB.2.2.2,
          List.length_nil]
        rw [hF4, hV5]
        omega
    · rw [exportMeshB_eqB2 orc poly dst vres hgv tres hgt he e2 he2]
      refine ⟨?_, ?_, ?_, ?_, ?_⟩
      · intro hOr
        rcases hOr with h | h
        · exfalso
          simp at h
          subst h
          rcases hclF with hc | hc | hc <;> rw [he2] at hc <;> simp at hc
        · simp at h
          subst h
          obtain ⟨t0, ev, ht, hval, hinv⟩ := hF7 he2
          refine ⟨tV ++ t0, ev, ?_, ?_, hinv⟩
          · simp only [hF1, hV1, ht]
            simp [List.append_assoc]
          · intro x hx
            rcases List.mem_append.mp hx with hx | hx
            · exact hVval x hx
            · exact hval x hx
      · simp only [hF1, hV1, List.filter_append, List.length_append,
          filterV_allV hV2, filterV_allF hF2, filters_begin.1, List.length_nil]
        omega
      · simp only [hF1, hV1, List.filter_append, List.length_append,
          filterF_allV hV2, filterF_allF hF2, filters_begin.2.1, List.length_nil]
        omega
      · simp only [hF1, hV1, List.filter_append, List.length_append,
          filterVE_allV hV2, filterVE_allF hF2, filters_begin.2.2.1, List.length_nil]
        rw [hF5, hV4]
        omega
      · simp only [hF1, hV1, List.filter_append, List.length_append,
          filterFE_allV hV2, filterFE_allF hF2, filters_begin.2.2.2, List.length_nil]
        rw [hF4, hV5]
        omega
  · have he' : e = .vertexB := by
      rcases hclV with h | h
      · rw [he] at h; exact absurd h (by simp)
      · rw [he] at h; exact Option.some_inj.mp h
    subst he'
    rw [exportMeshB_eqA2 orc poly dst vres hgv Err.vertexB he]
    refine ⟨?_, ?_, ?_, ?_, ?_⟩
    · intro _
      obtain ⟨t0, ev, ht, hval, hinv⟩ := hV7 (by rw [he]; simp)
      refine ⟨t0, ev, ?_, hval, hinv⟩
      simp only [hV1, ht]
      simp [List.append_assoc]
    · simp only [hV1, List.filter_append, List.length_append, filterV_allV hV2,
        filters_begin.1, List.length_nil]
      omega
    · simp only [hV1, List.filter_append, List.length_append, filterF_allV hV2,
        filters_begin.2.1, List.length_nil]
      omega
    · simp only [hV1, List.filter_append, List.length_append, filterVE_allV hV2,
        filters_begin.2.2.1, List.length_nil]
      rw [hV4]
      omega
    · simp only [hV1, List.filter_append, List.length_append, filterFE_allV hV2,
        filters_begin.2.2.2, List.length_nil]
      rw [hV5]
      omega

lemma exportC_accounting (orc : Oracle) (src : C3t3) (dst : Mesh) :
    (((exportMeshC orc src dst).err = some .vertexC ∨
      (exportMeshC orc src dst).err = some .faceC) →
      ∃ t ev, (exportMeshC orc src dst).trace = (Ev.begin :: t) ++ [ev] ∧
        (∀ e ∈ t, evValid e = true) ∧ evValid ev = false) ∧
    ((exportMeshC orc src dst).trace.filter isAddV).length ≤ src.finiteVertices.length ∧
    ((exportMeshC orc src dst).trace.filter isAddF).length ≤ src.facets.length ∧
    (exportMeshC orc src dst).mesh.vertices.length = dst.vertices.length +
      ((exportMeshC orc src dst).trace.filter (fun e => isAddV e && evValid e)).length ∧
    (exportMeshC orc src dst).mesh.faces.length = dst.faces.length +
      ((exportMeshC orc src dst).trace.filter (fun e => isAddF e && evValid e)).length := by
  obtain ⟨tV, hV1, hV2, hV3, hV4, hV5, hV6, hV7⟩ :=
    cVertexLoop_shape orc src.finiteVertices 0 dst emptyVMap [Ev.begin]
  obtain ⟨tF, hF1, hF2, hF3, hF4, hF5, hF6, hF7⟩ :=
    cFacetLoop_shape orc src.facets 0
      (cVertexLoop orc src.finiteVertices 0 dst emptyVMap [Ev.begin]).vmap
      (cVertexLoop orc src.finiteVertices 0 dst emptyVMap [Ev.begin]).mesh
      (cVertexLoop orc src.finiteVertices 0 dst emptyVMap [Ev.begin]).trace
  have hclV := cVertexLoop_err orc src.finiteVertices 0 dst emptyVMap [Ev.begin]
  have hclF := cFacetLoop_err orc src.facets 0
      (cVertexLoop orc src.finiteVertices 0 dst emptyVMap [Ev.begin]).vmap
      (cVertexLoop orc src.finiteVertices 0 dst emptyVMap [Ev.begin]).mesh
      (cVertexLoop orc src.finiteVertices 0 dst emptyVMap [Ev.begin]).trace
  generalize hgv : cVertexLoop orc src.finiteVertices 0 dst emptyVMap [Ev.begin] = vres at *
  generalize hgt : cFacetLoop orc src.facets 0 vres.vmap vres.mesh vres.trace = tres at *
  rcases he : vres.err with _ | e
  · have hVval : ∀ e ∈ tV, evValid e = true := hV6 he
    rcases he2 : tres.err with _ | e2
    · rw [exportMeshC_eqC2 orc src dst vres hgv tres hgt he he2]
      refine ⟨?_, ?_, ?_, ?_, ?_⟩
      · intro hOr; rcases hOr with h | h <;> simp at h
      · simp only [hF1, hV1, List.filter_append, List.length_append,
          filterV_allV hV2, filterV_allF hF2, filters_begin.1, filters_endB.1,
          List.length_nil]
        omega
      · simp only [hF1, hV1, List.filter_append, List.length_append,
          filterF_allV hV2, filterF_allF hF2, filters_begin.2.1, filters_endB.2.1,
          List.length_nil]
        omega
      · simp only [hF1, hV1, List.filter_append, List.length_append,
          filterVE_allV hV2, filterVE_allF hF2, filters_begin.2.2.1, filters_endB.2.2.1,
          List.length_nil]
        rw [hF5, hV4]
        omega
      · simp only [hF1, hV1, List.filter_append, List.length_append,
          filterFE_allV hV2, filterFE_allF hF2, filters_begin.2.2.2, filters_endB.2.2.2,
          List.length_nil]
        rw [hF4, hV5]
        omega
    · rw [exportMeshC_eqB2 orc src dst vres hgv tres hgt he e2 he2]
      refine ⟨?_, ?_, ?_, ?_, ?_⟩
      · intro hOr
        rcases hOr with h | h
        · exfalso
          simp at h
          subst h
          rcases hclF with hc | hc | hc <;> rw [he2] at hc <;> simp at hc
        · simp at h
          subst h
          obtain ⟨t0, ev, ht, hval, hinv⟩ := hF7 he2
          refine ⟨tV ++ t0, ev, ?_, ?_, hinv⟩
          · simp only [hF1, hV1, ht]
            simp [List.append_assoc]
          · intro x hx
            rcases List.mem_append.mp hx with hx | hx
            · exact hVval x hx
            · exact hval x hx
      · simp only [hF1, hV1, List.filter_append, List.length_append,
          filterV_allV hV2, filterV_allF hF2, filters_begin.1, List.length_nil]
        omega
      · simp only [hF1, hV1, List.filter_append, List.length_append,
          filterF_allV hV2, filterF_allF hF2, filters_begin.2.1, List.length_nil]
        omega
      · simp only [hF1, hV1, List.filter_append, List.length_append,
          filterVE_allV hV2, filterVE_allF hF2, filters_begin.2.2.1, List.length_nil]
        rw [hF5, hV4]
        omega
      · simp only [hF1, hV1, List.filter_append, List.length_append,
          filterFE_allV hV2, filterFE_allF hF2, filters_begin.2.2.2, List.length_nil]
        rw [hF4, hV5]
        omega
  · have he' : e = .vertexC := by
      rcases hclV with h | h
      · rw [he] at h; exact absurd h (by simp)
      · rw [he] at h; exact Option.some_inj.mp h
    subst he'
    rw [exportMeshC_eqA2 orc src dst vres hgv Err.vertexC he]
    refine ⟨?_, ?_, ?_, ?_, ?_⟩
    · intro _
      obtain ⟨t0, ev, ht, hval, hinv⟩ := hV7 (by rw [he]; simp)
      refine ⟨t0, ev, ?_, hval, hinv⟩
      simp only [hV1, ht]
      simp [List.append_assoc]
    · simp only [hV1, List.filter_append, List.length_append, filterV_allV hV2,
        filters_begin.1, List.length_nil]
      omega
    · simp only [hV1, List.filter_append, List.length_append, filterF_allV hV2,
        filters_begin.2.1, List.length_nil]
      omega
    · simp only [hV1, List.filter_append, List.length_append, filterVE_allV hV2,
        filters_begin.2.2.1, List.length_nil]
      rw [hV4]
      omega
    · simp only [hV1, List.filter_append, List.length_append, filterFE_allV hV2,
        filters_begin.2.2.2, List.length_nil]
      rw [hV5]
      omega

/-- C8: in both export adapters, an invalid handle from `addVertex`/`addFace`
aborts the export immediately: the failing call is the last trace event, every
earlier insertion call had returned a valid handle, and nothing follows it.
Each insertion is attempted at most once per raw item (the number of
`addVertex`/`addFace` calls never exceeds the raw counts — no retry), and no
rollback is performed: the mesh keeps its prior content plus exactly one
element per valid insertion call. -/
theorem claim_C8 : ∀ (orc : Oracle) (poly : Polygonizer) (dst : Mesh) (src : C3t3)
    (dst2 : Mesh),
    ((((exportMeshB orc poly dst).err = some .vertexB ∨
       (exportMeshB orc poly dst).err = some .faceB) →
       ∃ t ev, (exportMeshB orc poly dst).trace = (Ev.begin :: t) ++ [ev] ∧
         (∀ e ∈ t, evValid e = true) ∧ evValid ev = false) ∧
     ((exportMeshB orc poly dst).trace.filter isAddV).length ≤ poly.vertices.length ∧
     ((exportMeshB orc poly dst).trace.filter isAddF).length ≤ poly.triangles.length ∧
     (exportMeshB orc poly dst).mesh.vertices.length = dst.vertices.length +
       ((exportMeshB orc poly dst).trace.filter (fun e => isAddV e && evValid e)).length ∧
     (exportMeshB orc poly dst).mesh.faces.length = dst.faces.length +
       ((exportMeshB orc poly dst).trace.filter (fun e => isAddF e && evValid e)).length) ∧
    ((((exportMeshC orc src dst2).err = some .vertexC ∨
       (exportMeshC orc src dst2).err = some .faceC) →
       ∃ t ev, (exportMeshC orc src dst2).trace = (Ev.begin :: t) ++ [ev] ∧
         (∀ e ∈ t, evValid e = true) ∧ evValid ev = false) ∧
     ((exportMeshC orc src dst2).trace.filter isAddV).length ≤ src.finiteVertices.length ∧
     ((exportMeshC orc src dst2).trace.filter isAddF).length ≤ src.facets.length ∧
     (exportMeshC orc src dst2).mesh.vertices.length = dst2.vertices.length +
       ((exportMeshC orc src dst2).trace.filter (fun e => isAddV e && evValid e)).length ∧
     (exportMeshC orc src dst2).mesh.faces.length = dst2.faces.length +
       ((exportMeshC orc src dst2).trace.filter (fun e => isAddF e && evValid e)).length) :=
  fun orc poly dst src dst2 =>
    ⟨exportB_accounting orc poly dst, exportC_accounting orc src dst2⟩

/-- C8 witness: with a builder that rejects every vertex insertion, both
exports fail at the very first insertion call, which is the single invalid
event and the last event of the trace. -/
theorem claim_C8_witness :
    (∃ t ev, (exportMeshB ⟨fun _ => false, fun _ => true⟩
        ⟨[(⟨0, 0, 0⟩, ⟨0, 0, 1⟩)], []⟩ ⟨[], []⟩).trace = (Ev.begin :: t) ++ [ev] ∧
      (∀ e ∈ t, evValid e = true) ∧ evValid ev = false) ∧
    (∃ t ev, (exportMeshC ⟨fun _ => false, fun _ => true⟩
        ⟨[(5, ⟨0, 0, 0⟩)], []⟩ ⟨[], []⟩).trace = (Ev.begin :: t) ++ [ev] ∧
      (∀ e ∈ t, evValid e = true) ∧ evValid ev = false) :=
  ⟨(claim_C8 ⟨fun _ => false, fun _ => true⟩ ⟨[(⟨0, 0, 0⟩, ⟨0, 0, 1⟩)], []⟩ ⟨[], []⟩
      ⟨[(5, ⟨0, 0, 0⟩)], []⟩ ⟨[], []⟩).1.1 (Or.inl (by decide)),
   (claim_C8 ⟨fun _ => false, fun _ => true⟩ ⟨[(⟨0, 0, 0⟩, ⟨0, 0, 1⟩)], []⟩ ⟨[], []⟩
      ⟨[(5, ⟨0, 0, 0⟩)], []⟩ ⟨[], []⟩).2.1 (Or.inl (by decide))⟩

/-- C6: in the refinement export, when the eager vertex phase completes,
every finite triangulation vertex has been inserted into the target mesh
(one mesh vertex per finite vertex) and recorded in the identity map; when
every facet corner is a finite triangulation vertex, the unmapped-vertex
fatal branch is unreachable; a corner actually missing from the map raises
the fatal error with nothing inserted; and in every run all vertex
insertions precede all facet insertions in the builder-call trace. -/
theorem claim_C6 : ∀ (orc : Oracle) (src : C3t3) (dst : Mesh),
    ((cVertexLoop orc src.finiteVertices 0 dst emptyVMap [Ev.begin]).err = none →
       (∀ vh ∈ src.finiteVertices.map Prod.fst,
          (((cVertexLoop orc src.finiteVertices 0 dst emptyVMap [Ev.begin]).vmap) vh).isSome =
            true) ∧
       (cVertexLoop orc src.finiteVertices 0 dst emptyVMap [Ev.begin]).mesh.vertices.length =
         dst.vertices.length + src.finiteVertices.length) ∧
    ((∀ fc ∈ src.facets, ∀ i ∈ facetVertexIndices fc.index,
        fc.cell.vertex i ∈ src.finiteVertices.map Prod.fst) →
       (exportMeshC orc src dst).err ≠ some .unmapped) ∧
    (∀ (k : Nat) (fc : Facet) (vm : Nat → Option Nat) (m : Mesh) (tr : List Ev),
       lookupHandles vm fc.cell (facetVertexIndices fc.index) = none →
       cFacetStep orc k fc vm m tr = ⟨m, tr, some .unmapped⟩) ∧
    (∃ tV tRest, (exportMeshC orc src dst).trace = (Ev.begin :: tV) ++ tRest ∧
       (∀ e ∈ tV, isAddV e = true) ∧ (∀ e ∈ tRest, isAddF e = true ∨ e = Ev.endB)) := by
  intro orc src dst
  refine ⟨?_, ?_, ?_, ?_⟩
  · intro h
    exact ⟨cVertexLoop_covers orc src.finiteVertices 0 dst emptyVMap [Ev.begin] h,
      (cVertexLoop_ok orc src.finiteVertices 0 dst emptyVMap [Ev.begin] h).1⟩
  · intro hmem
    rcases he : (cVertexLoop orc src.finiteVertices 0 dst emptyVMap [Ev.begin]).err with _ | e
    · have hcov := cVertexLoop_covers orc src.finiteVertices 0 dst emptyVMap [Ev.begin] he
      have hnm := cFacetLoop_no_unmapped orc src.facets 0
        (cVertexLoop orc src.finiteVertices 0 dst emptyVMap [Ev.begin]).vmap
        (cVertexLoop orc src.finiteVertices 0 dst emptyVMap [Ev.begin]).mesh
        (cVertexLoop orc src.finiteVertices 0 dst emptyVMap [Ev.begin]).trace
        (fun fc hfc i hi => hcov _ (hmem fc hfc i hi))
      rcases he2 : (cFacetLoop orc src.facets 0
        (cVertexLoop orc src.finiteVertices 0 dst emptyVMap [Ev.begin]).vmap
        (cVertexLoop orc src.finiteVertices 0 dst emptyVMap [Ev.begin]).mesh
        (cVertexLoop orc src.finiteVertices 0 dst emptyVMap [Ev.begin]).trace).err with _ | e2
      · rw [exportMeshC_eqC orc src dst he he2]
        simp
      · rw [exportMeshC_eqB orc src dst e2 he he2]
        intro hcontra
        simp at hcontra
        exact hnm (by rw [he2, hcontra])
    · have he' : e = .vertexC := by
        rcases cVertexLoop_err orc src.finiteVertices 0 dst emptyVMap [Ev.begin] with h | h
        · rw [he] at h; exact absurd h (by simp)
        · rw [he] at h; exact Option.some_inj.mp h
      subst he'
      rw [exportMeshC_eqA orc src dst .vertexC he]
      simp
  · intro k fc vm m tr h
    simp [cFacetStep, h]
  · obtain ⟨tV, hV1, hV2, _, _, _, _, _⟩ :=
      cVertexLoop_shape orc src.finiteVertices 0 dst emptyVMap [Ev.begin]
    obtain ⟨tF, hF1, hF2, _, _, _, _, _⟩ :=
      cFacetLoop_shape orc src.facets 0
        (cVertexLoop orc src.finiteVertices 0 dst emptyVMap [Ev.begin]).vmap
        (cVertexLoop orc src.finiteVertices 0 dst emptyVMap [Ev.begin]).mesh
        (cVertexLoop orc src.finiteVertices 0 dst emptyVMap [Ev.begin]).trace
    rcases he : (cVertexLoop orc src.finiteVertices 0 dst emptyVMap [Ev.begin]).err with _ | e
    · rcases he2 : (cFacetLoop orc src.facets 0
        (cVertexLoop orc src.finiteVertices 0 dst emptyVMap [Ev.begin]).vmap
        (cVertexLoop orc src.finiteVertices 0 dst emptyVMap [Ev.begin]).mesh
        (cVertexLoop orc src.finiteVertices 0 dst emptyVMap [Ev.begin]).trace).err with _ | e2
      · rw [exportMeshC_eqC orc src dst he he2]
        refine ⟨tV, tF ++ [Ev.endB], ?_, hV2, ?_⟩
        · rw [hF1, hV1]
          simp [List.append_assoc]
        · intro e he'
          rcases List.mem_append.mp he' with h | h
          · exact Or.inl (hF2 e h)
          · simp at h
            exact Or.inr h
      · rw [exportMeshC_eqB orc src dst e2 he he2]
        refine ⟨tV, tF, ?_, hV2, fun e h => Or.inl (hF2 e h)⟩
        rw [hF1, hV1]
        simp [List.append_assoc]
    · rw [exportMeshC_eqA orc src dst e he]
      refine ⟨tV, [], ?_, hV2, by simp⟩
      rw [hV1]
      simp

/-- C6 witness: one finite vertex with identity 5, one facet whose cell has
every corner 5 and opposite index 0; plus a facet over an empty identity map
tripping the unmapped error. -/
theorem claim_C6_witness :
    ((∀ vh ∈ ([(5, (⟨0, 0, 0⟩ : Vec3))] : List (Nat × Vec3)).map Prod.fst,
        ((cVertexLoop ⟨fun _ => true, fun _ => true⟩ [(5, ⟨0, 0, 0⟩)] 0 ⟨[], []⟩ emptyVMap
            [Ev.begin]).vmap vh).isSome = true) ∧
      (cVertexLoop ⟨fun _ => true, fun _ => true⟩ [(5, ⟨0, 0, 0⟩)] 0 ⟨[], []⟩ emptyVMap
          [Ev.begin]).mesh.vertices.length = 0 + 1) ∧
    (exportMeshC ⟨fun _ => true, fun _ => true⟩ ⟨[(5, ⟨0, 0, 0⟩)], [⟨⟨5, 5, 5, 5⟩, 0⟩]⟩
        ⟨[], []⟩).err ≠ some .unmapped ∧
    cFacetStep ⟨fun _ => true, fun _ => true⟩ 0 ⟨⟨9, 9, 9, 9⟩, 0⟩ emptyVMap ⟨[], []⟩ [] =
      ⟨⟨[], []⟩, [], some .unmapped⟩ :=
  ⟨(claim_C6 ⟨fun _ => true, fun _ => true⟩ ⟨[(5, ⟨0, 0, 0⟩)], [⟨⟨5, 5, 5, 5⟩, 0⟩]⟩
      ⟨[], []⟩).1 (by decide),
   (claim_C6 ⟨fun _ => true, fun _ => true⟩ ⟨[(5, ⟨0, 0, 0⟩)], [⟨⟨5, 5, 5, 5⟩, 0⟩]⟩
      ⟨[], []⟩).2.1 (by decide),
   (claim_C6 ⟨fun _ => true, fun _ => true⟩ ⟨[(5, ⟨0, 0, 0⟩)], [⟨⟨5, 5, 5, 5⟩, 0⟩]⟩
      ⟨[], []⟩).2.2.1 0 ⟨⟨9, 9, 9, 9⟩, 0⟩ emptyVMap ⟨[], []⟩ [] (by decide)⟩

end Thea
